import Mathlib

/-!
Verification of the Ernest export/publish orchestration engine.

The definitions below are shallow embeddings of the Rust sources under
`src-tauri/src/` (`credentials.rs`, `export.rs`, `publish.rs`, `project.rs`).
External effects (filesystem, git processes, network, OS keyring) are modelled
as explicit oracle records; machine integers are modelled as `Nat` with
explicit reduction modulo 2^32 where the source uses wrapping 32-bit
arithmetic.
-/

namespace Ernest

/-! ## SHA-256 (the `sha2` crate computation used by `credential_key`)

The credential key derivation in `credentials.rs` hashes the project-root
path bytes with SHA-256 and hex-encodes the digest.  The hash is computed
here exactly per FIPS 180-4, on `Nat` values kept below 2^32. -/

def w32 (n : Nat) : Nat := n % 4294967296

def rotr32 (r x : Nat) : Nat := w32 ((x >>> r) ||| (x <<< (32 - r)))

def smallSigma0 (x : Nat) : Nat := (rotr32 7 x) ^^^ (rotr32 18 x) ^^^ (x >>> 3)

def smallSigma1 (x : Nat) : Nat := (rotr32 17 x) ^^^ (rotr32 19 x) ^^^ (x >>> 10)

def bigSigma0 (x : Nat) : Nat := (rotr32 2 x) ^^^ (rotr32 13 x) ^^^ (rotr32 22 x)

def bigSigma1 (x : Nat) : Nat := (rotr32 6 x) ^^^ (rotr32 11 x) ^^^ (rotr32 25 x)

def chFn (e f g : Nat) : Nat := (e &&& f) ^^^ ((e ^^^ 4294967295) &&& g)

def majFn (a b c : Nat) : Nat := (a &&& b) ^^^ (a &&& c) ^^^ (b &&& c)

structure Hash8 where
  a : Nat
  b : Nat
  c : Nat
  d : Nat
  e : Nat
  f : Nat
  g : Nat
  h : Nat
deriving Repr, DecidableEq

def sha256Init : Hash8 :=
  ⟨1779033703, 3144134277, 1013904242, 2773480762,
   1359893119, 2600822924, 528734635, 1541459225⟩

def sha256K : List Nat :=
  [1116352408, 1899447441, 3049323471, 3921009573, 961987163,
   1508970993, 2453635748, 2870763221, 3624381080, 310598401,
   607225278, 1426881987, 1925078388, 2162078206, 2614888103,
   3248222580, 3835390401, 4022224774, 264347078, 604807628,
   770255983, 1249150122, 1555081692, 1996064986, 2554220882,
   2821834349, 2952996808, 3210313671, 3336571891, 3584528711,
   113926993, 338241895, 666307205, 773529912, 1294757372,
   1396182291, 1695183700, 1986661051, 2177026350, 2456956037,
   2730485921, 2820302411, 3259730800, 3345764771, 3516065817,
   3600352804, 4094571909, 275423344, 430227734, 506948616,
   659060556, 883997877, 958139571, 1322822218, 1537002063,
   1747873779, 1955562222, 2024104815, 2227730452, 2361852424,
   2428436474, 2756734187, 3204031479, 3329325298]

def scheduleStep (w : Array Nat) (_i : Nat) : Array Nat :=
  let n := w.size
  w.push (w32 ((w.getD (n - 16) 0) + smallSigma0 (w.getD (n - 15) 0) +
               (w.getD (n - 7) 0) + smallSigma1 (w.getD (n - 2) 0)))

def scheduleWords (block : List Nat) : List Nat :=
  ((List.range 48).foldl scheduleStep block.toArray).toList

def compressRound (st : Hash8) (kw : Nat × Nat) : Hash8 :=
  let t1 := w32 (st.h + bigSigma1 st.e + chFn st.e st.f st.g + kw.1 + kw.2)
  let t2 := w32 (bigSigma0 st.a + majFn st.a st.b st.c)
  ⟨w32 (t1 + t2), st.a, st.b, st.c, w32 (st.d + t1), st.e, st.f, st.g⟩

def compressBlock (h : Hash8) (block : List Nat) : Hash8 :=
  let ws := scheduleWords block
  let st := (sha256K.zip ws).foldl compressRound h
  ⟨w32 (h.a + st.a), w32 (h.b + st.b), w32 (h.c + st.c), w32 (h.d + st.d),
   w32 (h.e + st.e), w32 (h.f + st.f), w32 (h.g + st.g), w32 (h.h + st.h)⟩

def natBytesBE : Nat → Nat → List Nat
  | 0, _ => []
  | k + 1, n => natBytesBE k (n / 256) ++ [n % 256]

def sha256pad (msg : List Nat) : List Nat :=
  let len := msg.length
  let zeros := (119 - (len % 64)) % 64
  msg ++ [0x80] ++ List.replicate zeros 0 ++ natBytesBE 8 (len * 8)

def bytesToWords : List Nat → List Nat
  | b0 :: b1 :: b2 :: b3 :: rest =>
      (((b0 * 256 + b1) * 256 + b2) * 256 + b3) :: bytesToWords rest
  | _ => []

def chunk16 : List Nat → List (List Nat)
  | a0 :: a1 :: a2 :: a3 :: a4 :: a5 :: a6 :: a7 ::
    a8 :: a9 :: a10 :: a11 :: a12 :: a13 :: a14 :: a15 :: rest =>
      [a0, a1, a2, a3, a4, a5, a6, a7, a8, a9, a10, a11, a12, a13, a14, a15] ::
        chunk16 rest
  | _ => []

def sha256Bytes (msg : List Nat) : List Nat :=
  let blocks := chunk16 (bytesToWords (sha256pad msg))
  let h := blocks.foldl compressBlock sha256Init
  [h.a, h.b, h.c, h.d, h.e, h.f, h.g, h.h].foldr (fun w acc => natBytesBE 4 w ++ acc) []

def utf8Bytes (c : Char) : List Nat :=
  let n := c.toNat
  if n < 128 then [n]
  else if n < 2048 then [192 + n / 64, 128 + n % 64]
  else if n < 65536 then [224 + n / 4096, 128 + (n / 64) % 64, 128 + n % 64]
  else [240 + n / 262144, 128 + (n / 4096) % 64, 128 + (n / 64) % 64, 128 + n % 64]

def strBytes (s : String) : List Nat := (s.data.map utf8Bytes).flatten

def hexChar (n : Nat) : Char :=
  (String.data "0123456789abcdef").getD n '0'

def hexEncode (bytes : List Nat) : String :=
  String.mk ((bytes.map (fun b => [hexChar (b / 16), hexChar (b % 16)])).flatten)

def sha256hex (s : String) : String := hexEncode (sha256Bytes (strBytes s))

/-! ## String primitives

Structural char-list counterparts of the `str` operations the sources use
(`contains`, `trim`, `starts_with`, `ends_with`, splitting); the standard
`String` versions operate on `Substring` byte positions, which a kernel
evaluation cannot reduce. -/

def listIsPrefix : List Char → List Char → Bool
  | [], _ => true
  | _ :: _, [] => false
  | a :: as, b :: bs => a == b && listIsPrefix as bs

def listInfix (pat : List Char) : List Char → Bool
  | [] => listIsPrefix pat []
  | c :: rest => listIsPrefix pat (c :: rest) || listInfix pat rest

/-- `str::contains` with a literal pattern. -/
def containsSub (s pat : String) : Bool := listInfix pat.data s.data

def strStartsWith (s pre : String) : Bool := listIsPrefix pre.data s.data

def strEndsWith (s suf : String) : Bool :=
  listIsPrefix suf.data.reverse s.data.reverse

/-- `str::trim` (whitespace stripped from both ends). -/
def strTrim (s : String) : String :=
  String.mk (((s.data.dropWhile Char.isWhitespace).reverse.dropWhile
    Char.isWhitespace).reverse)

def splitByAux (p : Char → Bool) : List Char → List Char → List String
  | [], acc => [String.mk acc.reverse]
  | c :: rest, acc =>
      if p c then String.mk acc.reverse :: splitByAux p rest []
      else splitByAux p rest (c :: acc)

/-- Splitting on a character predicate (`str::split`). -/
def splitBy (p : Char → Bool) (s : String) : List String :=
  splitByAux p s.data []

def joinSep (sep : String) : List String → String
  | [] => ""
  | [x] => x
  | x :: y :: rest => x ++ sep ++ joinSep sep (y :: rest)

/-! ## Credential key derivation (`credentials.rs`, `credential_key`) -/

inductive CredentialTarget
  | ftp | netlify | vercel | git
deriving Repr, DecidableEq

def CredentialTarget.asStr : CredentialTarget → String
  | .ftp => "ftp"
  | .netlify => "netlify"
  | .vercel => "vercel"
  | .git => "git"

inductive CredentialKind
  | password | token
deriving Repr, DecidableEq

def CredentialKind.asStr : CredentialKind → String
  | .password => "password"
  | .token => "token"

/-- The key derivation of `credential_key` in `credentials.rs`: the project
root path is rendered to bytes and SHA-256 hashed, and the key is
`target:kind:profile-or-default:hex-digest`. -/
def credential_key (projectRoot : String) (target : CredentialTarget)
    (profile : Option String) (kind : CredentialKind) : String :=
  target.asStr ++ ":" ++ kind.asStr ++ ":" ++ (profile.getD "default") ++ ":" ++
    sha256hex projectRoot

/-! Decoding machinery: a credential key determines its four fields because
the target, kind and hex-digest components never contain a colon. -/

def splitColon : List Char → List Char × List Char
  | [] => ([], [])
  | c :: rest =>
      if c = ':' then ([], rest)
      else ((splitColon rest).1.cons c, (splitColon rest).2)

/-! ## Paths

File-system paths are modelled as absolute/relative component lists;
`Path::starts_with` and `Path::join` from the Rust standard library act on
components, which is what these operations mirror. -/

structure FsPath where
  absolute : Bool
  comps : List String
deriving Repr, DecidableEq

def FsPath.display (p : FsPath) : String :=
  (if p.absolute then "/" else "") ++ joinSep "/" p.comps

def FsPath.join (p q : FsPath) : FsPath :=
  if q.absolute then q else ⟨p.absolute, p.comps ++ q.comps⟩

def FsPath.startsWith (p q : FsPath) : Bool :=
  p.absolute == q.absolute && q.comps.isPrefixOf p.comps

def FsPath.fileName (p : FsPath) : Option String := p.comps.getLast?

def FsPath.parent (p : FsPath) : FsPath := ⟨p.absolute, p.comps.dropLast⟩

def FsPath.parse (s : String) : FsPath :=
  ⟨strStartsWith s "/", (splitBy (· == '/') s).filter (· ≠ "")⟩

/-- `resolve_path` in `export.rs`: absolute repo paths stand alone, relative
ones are joined onto the project root. -/
def resolve_path (projectRoot : FsPath) (repoPath : String) : FsPath :=
  let p := FsPath.parse repoPath
  if p.absolute then p else projectRoot.join p

/-! ## Export configuration (`export.rs` data model) -/

inductive GitMode
  | addOnly | addAndCommit
deriving Repr, DecidableEq, BEq

inductive GitCheck
  | repo | status | clean
deriving Repr, DecidableEq, BEq

structure GitProfile where
  enabled : Bool
  repo_path : Option String
  mode : Option GitMode
  checks : Option (List GitCheck)
deriving Repr, DecidableEq

structure GitConfig where
  enabled : Bool
  mode : Option GitMode
  checks : List GitCheck
  profiles : List (String × GitProfile)
deriving Repr, DecidableEq

structure ResolvedGitConfig where
  repo_path : String
  mode : GitMode
  checks : List GitCheck
deriving Repr, DecidableEq

/-- `GitConfig::resolve`: profile field wins, else section default, else
builtin default. -/
def GitConfig.resolve (g : GitConfig) (profile : Option GitProfile) :
    ResolvedGitConfig :=
  { mode := ((profile.bind fun p => p.mode) <|> g.mode).getD .addOnly
    checks := (profile.bind fun p => p.checks).getD g.checks
    repo_path := (profile.bind fun p => p.repo_path).getD "." }

inductive FtpProtocol
  | ftp | sftp
deriving Repr, DecidableEq, BEq

structure FtpProfile where
  enabled : Bool
  host : Option String
  port : Option Nat
  username : Option String
  remote_path : Option String
deriving Repr, DecidableEq

structure FtpConfig where
  enabled : Bool
  protocol : Option FtpProtocol
  profiles : List (String × FtpProfile)
deriving Repr, DecidableEq

structure ResolvedFtpConfig where
  protocol : FtpProtocol
  host : String
  port : Nat
  username : String
  remote_path : String
deriving Repr, DecidableEq

/-- `FtpConfig::resolve`: fails on a missing host, then on a missing remote
path (the `?` operator order in the Rust struct literal). -/
def FtpConfig.resolve (f : FtpConfig) (p : FtpProfile) :
    Except String ResolvedFtpConfig :=
  match p.host with
  | none => .error "Missing FTP host"
  | some host =>
    match p.remote_path with
    | none => .error "Missing remote path"
    | some rp =>
        .ok ⟨f.protocol.getD .sftp, host, p.port.getD 22, p.username.getD "", rp⟩

structure NetlifyConfig where
  enabled : Bool
  site_id : Option String
  trigger_deploy : Bool
deriving Repr, DecidableEq

inductive VercelEnvironment
  | production | preview
deriving Repr, DecidableEq

structure VercelConfig where
  enabled : Bool
  project_name : Option String
  deploy_hook_url : Option String
  environment : VercelEnvironment
deriving Repr, DecidableEq

structure ExportConfig where
  version : Nat
  git : Option GitConfig
  ftp : Option FtpConfig
  netlify : Option NetlifyConfig
  vercel : Option VercelConfig
deriving Repr, DecidableEq

inductive ConfigError
  | unsupportedVersion (v : Nat)
  | invalidNetlifyConfig
  | invalidVercelConfig
  | invalidFtpProfile (name : String)
deriving Repr, DecidableEq

/-- The `thiserror` display strings of `ConfigError`. -/
def ConfigError.toMessage : ConfigError → String
  | .unsupportedVersion v => "unsupported config version: " ++ toString v
  | .invalidNetlifyConfig => "netlify enabled but site_id is missing"
  | .invalidVercelConfig => "vercel enabled but project_name is missing"
  | .invalidFtpProfile name =>
      "ftp profile '" ++ name ++ "' is enabled but host is missing"

def validateFtpProfiles : List (String × FtpProfile) → Except ConfigError Unit
  | [] => .ok ()
  | (name, p) :: rest =>
      if p.enabled && p.host.isNone then .error (.invalidFtpProfile name)
      else validateFtpProfiles rest

/-- `ExportConfig::validate`, check for check in source order. -/
def ExportConfig.validate (c : ExportConfig) : Except ConfigError Unit :=
  if c.version ≠ 1 then .error (.unsupportedVersion c.version)
  else if (match c.netlify with
           | some n => n.enabled && n.site_id.isNone
           | none => false) then .error .invalidNetlifyConfig
  else if (match c.vercel with
           | some v => v.enabled && v.project_name.isNone
           | none => false) then .error .invalidVercelConfig
  else if (match c.vercel with
           | some v => v.enabled && v.deploy_hook_url.isNone
           | none => false) then .error .invalidVercelConfig
  else match c.ftp with
       | some f => validateFtpProfiles f.profiles
       | none => .ok ()

/-! ## Responses, logs, progress -/

inductive ExportTarget
  | git | ftp | netlify | vercel
deriving Repr, DecidableEq

structure ExportRequest where
  file_path : String
  target : ExportTarget
  profile : Option String
deriving Repr, DecidableEq

inductive ExportErrorCode
  | exportCancelled | configMissing | configInvalid | unsupportedConfigVersion
  | targetDisabled | profileMissing | profileDisabled | profileRequired
  | fileMissing | fileNotInRepo | gitRepoMissing | gitDirty | gitFailed
  | ftpFailed | ftpMissingUsername | ftpMissingPassword
  | netlifyMissingToken | netlifyFailed | vercelFailed
deriving Repr, DecidableEq

structure ExportError where
  code : ExportErrorCode
  message : String
  detail : Option String
deriving Repr, DecidableEq

inductive ExportLogLevel
  | info | warn | error
deriving Repr, DecidableEq

structure ExportLog where
  level : ExportLogLevel
  message : String
  detail : Option String
deriving Repr, DecidableEq

structure ExportResponse where
  ok : Bool
  summary : String
  logs : List ExportLog
  error : Option ExportError
deriving Repr, DecidableEq

/-- Progress event; `percent` carries the exact rational value of the
binary32 (`f32`) number the source computes as
`(sent_bytes as f32 / total_bytes as f32) * 100.0`. -/
structure ExportProgress where
  jobId : String
  sentBytes : Nat
  totalBytes : Nat
  percent : ℚ
deriving Repr, DecidableEq

structure ExportFinished where
  jobId : String
  response : ExportResponse
deriving Repr, DecidableEq

def log_info (logs : List ExportLog) (message : String)
    (detail : Option String) : List ExportLog :=
  logs ++ [⟨.info, message, detail⟩]

def log_warn (logs : List ExportLog) (message : String)
    (detail : Option String) : List ExportLog :=
  logs ++ [⟨.warn, message, detail⟩]

def error_response (code : ExportErrorCode) (message : String)
    (detail : Option String) (logs : List ExportLog) : ExportResponse :=
  ⟨false, message, logs, some ⟨code, message, detail⟩⟩

def cancelled_response (message : String) (logs : List ExportLog) :
    ExportResponse :=
  let logs := log_warn logs "Export cancelled" none
  ⟨false, message, logs, some ⟨.exportCancelled, message, none⟩⟩

/-- Trace of git invocations performed by the adapter, used to state that a
failure happened before any stage/commit step. -/
inductive GitCmd
  | revParseWorkTree | statusPorcelain | revParseTopLevel
  | add (file : String) | commit (message : String)
deriving Repr, DecidableEq

/-- Adapter outcome: terminal response, next cancellation-poll index, git
commands run, progress events emitted. -/
structure AdapterOut where
  resp : ExportResponse
  polls : Nat
  gitTrace : List GitCmd
  events : List ExportProgress
deriving Repr, DecidableEq

/-! ## Git adapter (`run_git_export`)

External `git` process results are an oracle record; the adapter is split at
its two label-free joint points (after profile resolution and after the
porcelain status capture) purely to keep the definition readable. -/

deriving instance DecidableEq for Except

structure GitEnv where
  isWorkTree : Except String String
  statusOut : Except String String
  topLevel : Except String FsPath
  addResult : Except String String
  commitResult : Except String String
deriving Repr, DecidableEq

def isOkE {α : Type} : Except String α → Bool
  | .ok _ => true
  | .error _ => false

def gitAfterStatus (filePath : FsPath) (resolved : ResolvedGitConfig)
    (request : ExportRequest) (cancel : Nat → Bool) (k : Nat)
    (logs : List ExportLog) (genv : GitEnv) (trace : List GitCmd)
    (statusOutput : String) : AdapterOut :=
  if resolved.checks.any (· == GitCheck.clean) && strTrim statusOutput != "" then
    ⟨error_response .gitDirty "Git working tree is not clean" none logs,
     k + 1, trace, []⟩
  else
    let trace := trace ++ [GitCmd.revParseTopLevel]
    match genv.topLevel with
    | .error e =>
        ⟨error_response .gitRepoMissing "Unable to resolve repository root"
          (some e) logs, k + 1, trace, []⟩
    | .ok repoRoot =>
      if !(filePath.startsWith repoRoot) then
        ⟨error_response .fileNotInRepo "File is outside the git repository"
          (some repoRoot.display) logs, k + 1, trace, []⟩
      else if cancel (k + 1) then
        ⟨cancelled_response "Export cancelled" logs, k + 2, trace, []⟩
      else
        let logs := log_info logs "Git add" (some filePath.display)
        let trace := trace ++ [GitCmd.add request.file_path]
        match genv.addResult with
        | .error e =>
            ⟨error_response .gitFailed "git add failed" (some e) logs,
             k + 2, trace, []⟩
        | .ok _ =>
          match resolved.mode with
          | .addOnly =>
              ⟨⟨true, "Git export completed", logs, none⟩, k + 2, trace, []⟩
          | .addAndCommit =>
            let fileName := (filePath.fileName).getD "file"
            let message := "Export " ++ fileName
            let logs := log_info logs "Git commit" (some message)
            let trace := trace ++ [GitCmd.commit message]
            match genv.commitResult with
            | .ok out =>
              if containsSub out "nothing to commit" then
                ⟨⟨true, "No changes to commit",
                  log_warn logs "Nothing to commit" none, none⟩,
                 k + 2, trace, []⟩
              else
                ⟨⟨true, "Git export completed", logs, none⟩, k + 2, trace, []⟩
            | .error e =>
              if containsSub e "nothing to commit" then
                ⟨⟨true, "No changes to commit",
                  log_warn logs "Nothing to commit" (some e), none⟩,
                 k + 2, trace, []⟩
              else
                ⟨error_response .gitFailed "git commit failed" (some e) logs,
                 k + 2, trace, []⟩

def gitWithResolved (projectRoot filePath : FsPath)
    (resolved : ResolvedGitConfig) (request : ExportRequest)
    (cancel : Nat → Bool) (k : Nat) (logs : List ExportLog)
    (genv : GitEnv) : AdapterOut :=
  let repoPath := resolve_path projectRoot resolved.repo_path
  if cancel k then ⟨cancelled_response "Export cancelled" logs, k + 1, [], []⟩
  else
    let logs := log_info logs "Running Git checks" (some repoPath.display)
    let checksRepo := resolved.checks.any (· == GitCheck.repo)
    let trace0 : List GitCmd := if checksRepo then [.revParseWorkTree] else []
    if checksRepo && !(isOkE genv.isWorkTree) then
      ⟨error_response .gitRepoMissing "Not a git repository" none logs,
       k + 1, trace0, []⟩
    else
      let checksStatus := resolved.checks.any
        (fun c => c == GitCheck.status || c == GitCheck.clean)
      let trace1 := trace0 ++ (if checksStatus then [GitCmd.statusPorcelain] else [])
      if checksStatus then
        match genv.statusOut with
        | .error e =>
            ⟨error_response .gitFailed "Unable to read git status" (some e)
              logs, k + 1, trace1, []⟩
        | .ok output =>
          let logs :=
            if strTrim output != "" then
              log_warn logs "Git status is not clean" (some (strTrim output))
            else log_info logs "Git status clean" none
          gitAfterStatus filePath resolved request cancel k logs genv trace1
            output
      else
        gitAfterStatus filePath resolved request cancel k logs genv trace1 ""

def run_git_export (projectRoot filePath : FsPath) (config : ExportConfig)
    (request : ExportRequest) (cancel : Nat → Bool) (k : Nat)
    (logs : List ExportLog) (genv : GitEnv) : AdapterOut :=
  match config.git with
  | some git =>
    if git.enabled then
      match request.profile with
      | some name =>
        match List.lookup name git.profiles with
        | none =>
            ⟨error_response .profileMissing "Git profile not found"
              (some name) logs, k, [], []⟩
        | some p =>
          if p.enabled then
            gitWithResolved projectRoot filePath (git.resolve (some p)) request
              cancel k logs genv
          else
            ⟨error_response .profileDisabled "Git profile is disabled"
              (some name) logs, k, [], []⟩
      | none =>
          gitWithResolved projectRoot filePath (git.resolve none) request
            cancel k logs genv
    else
      ⟨error_response .targetDisabled "Git export is disabled" none logs,
       k, [], []⟩
  | none =>
      ⟨error_response .targetDisabled "Git export is disabled" none logs,
       k, [], []⟩

/-! ## SFTP streaming upload (`upload_sftp`)

The local file's successive `read` results and the per-chunk `write_all`
results are oracle sequences; an exhausted sequence models the final
zero-byte read (EOF).  The cancellation flag is polled once at the top of
every loop iteration, exactly as in the source. -/

structure SftpEnv where
  tcpConnect : Except String Unit
  sessionNew : Except String Unit
  handshake : Except String Unit
  agentAuthOk : Bool
  passwordAuth : Except String Unit
  passwordAuthOk : Bool
  sftpOpen : Except String Unit
  remoteCreate : Except String Unit
  localOpen : Except String Unit
  steps : List (Except String Nat × Except String Unit)
deriving Repr, DecidableEq

structure UploadOut where
  result : Except String Unit
  events : List ExportProgress
  polls : Nat
deriving Repr, DecidableEq

/-! ### IEEE-754 binary32 arithmetic

The source computes `percent` in `f32`:
`(sent_bytes as f32 / total_bytes as f32) * 100.0`.  Every binary32 value is
a rational, and each of the cast, the division and the multiplication is the
exact result rounded to the nearest binary32 (ties to even), so the
computation is modelled by exact rationals passed through `roundF32` at each
step.  The model covers the finite binary32 range, which contains every
value this pipeline can produce (casts of u64 sizes, their quotients, and
quotients scaled by 100). -/

/-- Round to the nearest integer, ties to even. -/
def rne (q : ℚ) : ℤ :=
  let n := ⌊q⌋
  let f := q - n
  if f < 1 / 2 then n
  else if 1 / 2 < f then n + 1
  else if n % 2 = 0 then n else n + 1

/-- The rational 2^e for an integer exponent. -/
def qpow2 (e : ℤ) : ℚ :=
  if 0 ≤ e then ((2 ^ e.toNat : ℕ) : ℚ)
  else 1 / ((2 ^ (-e).toNat : ℕ) : ℚ)

def qlog2Up : Nat → ℚ → ℤ → ℤ
  | 0, _, e => e
  | fuel + 1, x, e => if x < 2 then e else qlog2Up fuel (x / 2) (e + 1)

def qlog2Down : Nat → ℚ → ℤ → ℤ
  | 0, _, e => e
  | fuel + 1, x, e => if 1 ≤ x then e else qlog2Down fuel (x * 2) (e - 1)

/-- Floor of the base-2 logarithm of a positive rational: the unique `e`
with `2^e ≤ x < 2^(e+1)` (exact for exponents within ±320, far beyond the
binary32 range). -/
def qlog2 (x : ℚ) : ℤ :=
  if 1 ≤ x then qlog2Up 320 x 0 else qlog2Down 320 x 0

/-- Round a positive rational to the nearest binary32 value: 24 bits of
precision for normal numbers, a fixed quantum of 2^-149 below the normal
range, ties to even. -/
def roundF32Pos (x : ℚ) : ℚ :=
  let e := qlog2 x
  let s : ℤ := if -126 ≤ e then e - 23 else -149
  (rne (x / qpow2 s) : ℚ) * qpow2 s

/-- Round a rational to the nearest binary32 value (finite range); the sign
analysis reads the numerator, whose sign is the sign of the rational. -/
def roundF32 (x : ℚ) : ℚ :=
  if x.num = 0 then 0
  else if 0 < x.num then roundF32Pos x
  else -(roundF32Pos (-x))

/-- The `u64 as f32` cast: the size rounded to the nearest binary32. -/
def toF32 (n : Nat) : ℚ := roundF32 (n : ℚ)

/-- The exact value of the source's `percent` computation: 0 when
`totalBytes` is 0, else the binary32 evaluation of
`(sent as f32 / total as f32) * 100.0` (the cast of each operand, the
division and the multiplication each correctly rounded). -/
def progressPercent (sent total : Nat) : ℚ :=
  if total = 0 then 0
  else roundF32 (roundF32 (toF32 sent / toF32 total) * 100)

def uploadLoop (jobId : String) (total : Nat) (cancel : Nat → Bool) :
    List (Except String Nat × Except String Unit) → Nat → Nat →
    List ExportProgress → UploadOut
  | [], k, _, events =>
      if cancel k then ⟨.error "export_cancelled", events, k + 1⟩
      else ⟨.ok (), events, k + 1⟩
  | (.error e, _) :: _, k, _, events =>
      if cancel k then ⟨.error "export_cancelled", events, k + 1⟩
      else ⟨.error e, events, k + 1⟩
  | (.ok readBytes, .error e) :: _, k, _, events =>
      if cancel k then ⟨.error "export_cancelled", events, k + 1⟩
      else if readBytes = 0 then ⟨.ok (), events, k + 1⟩
      else ⟨.error e, events, k + 1⟩
  | (.ok readBytes, .ok _) :: rest, k, sent, events =>
      if cancel k then ⟨.error "export_cancelled", events, k + 1⟩
      else if readBytes = 0 then ⟨.ok (), events, k + 1⟩
      else
        uploadLoop jobId total cancel rest (k + 1) (sent + readBytes)
          (events ++ [⟨jobId, sent + readBytes, total,
            progressPercent (sent + readBytes) total⟩])

def upload_sftp (jobId : String) (password : Option String) (total : Nat)
    (cancel : Nat → Bool) (k : Nat) (env : SftpEnv) : UploadOut :=
  match env.tcpConnect with
  | .error e => ⟨.error e, [], k⟩
  | .ok _ =>
  match env.sessionNew with
  | .error e => ⟨.error e, [], k⟩
  | .ok _ =>
  match env.handshake with
  | .error e => ⟨.error e, [], k⟩
  | .ok _ =>
  match
    (if env.agentAuthOk then Except.ok true
     else match password with
          | some _ =>
            match env.passwordAuth with
            | .error e => .error e
            | .ok _ => .ok env.passwordAuthOk
          | none => .ok false : Except String Bool) with
  | .error e => ⟨.error e, [], k⟩
  | .ok authed =>
  if !authed then ⟨.error "ssh_auth_failed", [], k⟩
  else
  match env.sftpOpen with
  | .error e => ⟨.error e, [], k⟩
  | .ok _ =>
  match env.remoteCreate with
  | .error e => ⟨.error e, [], k⟩
  | .ok _ =>
  match env.localOpen with
  | .error e => ⟨.error e, [], k⟩
  | .ok _ => uploadLoop jobId total cancel env.steps k 0 []

/-! ## File-transfer adapter (`run_ftp_export`) -/

structure FtpEnv where
  lookupPassword : Except String (Option String)
  envUser : String
  envFtpPassword : Option String
  metadata : Except String Nat
  sftp : SftpEnv
  uploadFtp : Except String Unit
deriving Repr, DecidableEq

def resolve_username (value : String) (envUser : String) : String :=
  if strTrim value != "" then strTrim value else envUser

def resolve_remote_path (remotePath : String) (filePath : FsPath) : String :=
  if strEndsWith remotePath "/" then
    remotePath ++ ((filePath.fileName).getD "export.md")
  else remotePath

def run_ftp_export (jobId : String) (filePath : FsPath)
    (config : ExportConfig) (request : ExportRequest) (cancel : Nat → Bool)
    (k : Nat) (logs : List ExportLog) (fenv : FtpEnv) : AdapterOut :=
  match config.ftp with
  | none =>
      ⟨error_response .targetDisabled "FTP export is disabled" none logs,
       k, [], []⟩
  | some ftp =>
    if ftp.enabled then
      match request.profile with
      | none =>
          ⟨error_response .profileRequired "FTP export requires a profile"
            none logs, k, [], []⟩
      | some name =>
        match List.lookup name ftp.profiles with
        | none =>
            ⟨error_response .profileMissing "FTP profile not found"
              (some name) logs, k, [], []⟩
        | some profile =>
          if profile.enabled then
            match ftp.resolve profile with
            | .error e =>
                ⟨error_response .configInvalid "Invalid FTP profile"
                  (some e) logs, k, [], []⟩
            | .ok resolved =>
              if cancel k then
                ⟨cancelled_response "Export cancelled" logs, k + 1, [], []⟩
              else
                match fenv.lookupPassword with
                | .error e =>
                    ⟨error_response .ftpFailed
                      "Unable to access credential storage" (some e) logs,
                     k + 1, [], []⟩
                | .ok storedPassword =>
                  let username := resolve_username resolved.username
                    fenv.envUser
                  if username = "" then
                    ⟨error_response .ftpMissingUsername
                      "FTP username is missing" none logs, k + 1, [], []⟩
                  else
                    let _remotePath := resolve_remote_path resolved.remote_path
                      filePath
                    match fenv.metadata with
                    | .error e =>
                        ⟨error_response .ftpFailed
                          "Unable to read file metadata" (some e) logs,
                         k + 1, [], []⟩
                    | .ok totalBytes =>
                      match resolved.protocol with
                      | .sftp =>
                        let logs := log_info logs "Connecting via SFTP"
                          (some resolved.host)
                        let up := upload_sftp jobId storedPassword totalBytes
                          cancel (k + 1) fenv.sftp
                        match up.result with
                        | .ok _ =>
                            ⟨⟨true, "SFTP export completed", logs, none⟩,
                             up.polls, [], up.events⟩
                        | .error e =>
                          if e = "export_cancelled" then
                            ⟨cancelled_response "Export cancelled" logs,
                             up.polls, [], up.events⟩
                          else if e = "ssh_auth_failed" &&
                              storedPassword.isNone then
                            ⟨error_response .ftpMissingPassword
                              "SFTP password missing (set in app or use SSH agent)"
                              none logs, up.polls, [], up.events⟩
                          else
                            ⟨error_response .ftpFailed "SFTP export failed"
                              (some e) logs, up.polls, [], up.events⟩
                      | .ftp =>
                        let password :=
                          match storedPassword with
                          | some p => p
                          | none => fenv.envFtpPassword.getD ""
                        if password = "" then
                          ⟨error_response .ftpMissingPassword
                            "FTP password missing (set in app)" none logs,
                           k + 1, [], []⟩
                        else
                          let logs := log_info logs "Connecting via FTP"
                            (some resolved.host)
                          match fenv.uploadFtp with
                          | .ok _ =>
                              ⟨⟨true, "FTP export completed", logs, none⟩,
                               k + 1, [], []⟩
                          | .error e =>
                              ⟨error_response .ftpFailed "FTP export failed"
                                (some e) logs, k + 1, [], []⟩
          else
            ⟨error_response .profileDisabled "FTP profile is disabled"
              (some name) logs, k, [], []⟩
    else
      ⟨error_response .targetDisabled "FTP export is disabled" none logs,
       k, [], []⟩

/-! ## Webhook-trigger adapters (`run_netlify_export`, `run_vercel_export`) -/

structure NetHttpResp where
  success : Bool
  status : String
  body : Option String
deriving Repr, DecidableEq

structure NetlifyEnv where
  lookupToken : Except String (Option String)
  post : Except String NetHttpResp
deriving Repr, DecidableEq

structure VercelEnv where
  post : Except String NetHttpResp
deriving Repr, DecidableEq

def run_netlify_export (config : ExportConfig) (cancel : Nat → Bool)
    (k : Nat) (logs : List ExportLog) (nenv : NetlifyEnv) : AdapterOut :=
  match config.netlify with
  | none =>
      ⟨error_response .targetDisabled "Netlify export is disabled" none logs,
       k, [], []⟩
  | some netlify =>
    if netlify.enabled then
      if !netlify.trigger_deploy then
        ⟨error_response .targetDisabled "Netlify deploy trigger disabled"
          none logs, k, [], []⟩
      else if cancel k then
        ⟨cancelled_response "Export cancelled" logs, k + 1, [], []⟩
      else
        match netlify.site_id with
        | none =>
            ⟨error_response .configInvalid "Invalid Netlify configuration"
              (some "site_id missing") logs, k + 1, [], []⟩
        | some rawSiteId =>
          let siteId := strTrim rawSiteId
          match nenv.lookupToken with
          | .ok none =>
              ⟨error_response .netlifyMissingToken
                "Netlify token missing (set in app)" none logs, k + 1, [], []⟩
          | .error e =>
              ⟨error_response .netlifyFailed
                "Unable to access credential storage" (some e) logs,
               k + 1, [], []⟩
          | .ok (some _token) =>
            if cancel (k + 1) then
              ⟨cancelled_response "Export cancelled" logs, k + 2, [], []⟩
            else
              let logs := log_info logs "Triggering Netlify deploy"
                (some siteId)
              match nenv.post with
              | .ok r =>
                if r.success then
                  ⟨⟨true, "Netlify deploy triggered", logs, none⟩,
                   k + 2, [], []⟩
                else
                  let detail := (r.body.filter (fun t => strTrim t != "")).getD
                    r.status
                  ⟨error_response .netlifyFailed "Netlify deploy failed"
                    (some detail) logs, k + 2, [], []⟩
              | .error e =>
                  ⟨error_response .netlifyFailed "Netlify deploy failed"
                    (some e) logs, k + 2, [], []⟩
    else
      ⟨error_response .targetDisabled "Netlify export is disabled" none logs,
       k, [], []⟩

def run_vercel_export (config : ExportConfig) (cancel : Nat → Bool) (k : Nat)
    (logs : List ExportLog) (venv : VercelEnv) : AdapterOut :=
  match config.vercel with
  | none =>
      ⟨error_response .targetDisabled "Vercel export is disabled" none logs,
       k, [], []⟩
  | some vercel =>
    if vercel.enabled then
      match vercel.deploy_hook_url with
      | some url =>
        if strTrim url != "" then
          let _deployHookUrl := strTrim url
          if cancel k then
            ⟨cancelled_response "Export cancelled" logs, k + 1, [], []⟩
          else
            let env := match vercel.environment with
              | .production => "production"
              | .preview => "preview"
            let projectName := vercel.project_name.getD "vercel"
            let logs := log_info logs "Triggering Vercel deploy"
              (some (projectName ++ " (" ++ env ++ ")"))
            match venv.post with
            | .ok r =>
              if r.success then
                ⟨⟨true, "Vercel deploy triggered", logs, none⟩, k + 1, [], []⟩
              else
                let detail := (r.body.filter (fun t => strTrim t != "")).getD
                  r.status
                ⟨error_response .vercelFailed "Vercel deploy failed"
                  (some detail) logs, k + 1, [], []⟩
            | .error e =>
                ⟨error_response .vercelFailed "Vercel deploy failed" (some e)
                  logs, k + 1, [], []⟩
        else
          ⟨error_response .configInvalid "Invalid Vercel configuration"
            (some "deploy_hook_url missing") logs, k, [], []⟩
      | none =>
          ⟨error_response .configInvalid "Invalid Vercel configuration"
            (some "deploy_hook_url missing") logs, k, [], []⟩
    else
      ⟨error_response .targetDisabled "Vercel export is disabled" none logs,
       k, [], []⟩

/-! ## The export pipeline (`run_export`) -/

structure PipelineEnv where
  fileExists : Bool
  findRoot : Option FsPath
  readConfig : Except String String
  parseConfig : Except String ExportConfig
  git : GitEnv
  ftp : FtpEnv
  netlify : NetlifyEnv
  vercel : VercelEnv
deriving Repr, DecidableEq

def run_export (jobId : String) (request : ExportRequest)
    (cancel : Nat → Bool) (env : PipelineEnv) : AdapterOut :=
  let logs : List ExportLog := []
  let filePath := FsPath.parse request.file_path
  if cancel 0 then ⟨cancelled_response "Export cancelled" logs, 1, [], []⟩
  else if !env.fileExists then
    ⟨error_response .fileMissing "File does not exist" none logs, 1, [], []⟩
  else
    match env.findRoot with
    | none =>
        ⟨error_response .configMissing
          "No .export.toml found in parent folders" none logs, 1, [], []⟩
    | some projectRoot =>
      let configPath := projectRoot.join ⟨false, [".export.toml"]⟩
      let logs := log_info logs "Loading export configuration"
        (some configPath.display)
      match env.readConfig with
      | .error e =>
          ⟨error_response .configMissing "Unable to read .export.toml"
            (some e) logs, 1, [], []⟩
      | .ok _raw =>
        match env.parseConfig with
        | .error e =>
            ⟨error_response .configInvalid "Invalid .export.toml" (some e)
              logs, 1, [], []⟩
        | .ok config =>
          match config.validate with
          | .error cerr =>
            let code := match cerr with
              | .unsupportedVersion _ => ExportErrorCode.unsupportedConfigVersion
              | _ => ExportErrorCode.configInvalid
            ⟨error_response code "Invalid export configuration"
              (some cerr.toMessage) logs, 1, [], []⟩
          | .ok _ =>
            if cancel 1 then
              ⟨cancelled_response "Export cancelled" logs, 2, [], []⟩
            else
              match request.target with
              | .git =>
                  run_git_export projectRoot filePath config request cancel 2
                    logs env.git
              | .ftp =>
                  run_ftp_export jobId filePath config request cancel 2 logs
                    env.ftp
              | .netlify => run_netlify_export config cancel 2 logs env.netlify
              | .vercel => run_vercel_export config cancel 2 logs env.vercel

/-! ## Job registry (`ExportJobs` and the async command handlers)

The registry is the locked map from job id to the job's shared cancellation
flag; the flag's current value is modelled as the Bool stored with the
entry. -/

abbrev JobRegistry := List (String × Bool)

/-- `ExportJobs::insert`: register a job with a fresh (unset) flag. -/
def jobsInsert (reg : JobRegistry) (jobId : String) : JobRegistry :=
  (jobId, false) :: reg.filter (fun p => p.1 ≠ jobId)

/-- `ExportJobs::cancel`: set the flag when registered, else the
"Unknown export job" error. -/
def jobsCancel (reg : JobRegistry) (jobId : String) :
    JobRegistry × Except String Unit :=
  match reg.lookup jobId with
  | some _ =>
      (reg.map (fun p => if p.1 = jobId then (p.1, true) else p), .ok ())
  | none => (reg, .error "Unknown export job")

/-- `ExportJobs::remove` (the `cleanup_export` command body). -/
def jobsRemove (reg : JobRegistry) (jobId : String) : JobRegistry :=
  reg.filter (fun p => p.1 ≠ jobId)

/-- The completion step of the spawned worker in `export_file_async`: it
emits the finished event and does not touch the registry. -/
def completeJob (reg : JobRegistry) (jobId : String)
    (response : ExportResponse) : JobRegistry × ExportFinished :=
  (reg, ⟨jobId, response⟩)

/-! ## Credential vault (`credentials.rs` commands)

The OS keyring is a string-keyed store; `keyring::Error::NoEntry` is the
distinguished absent case, which `storeGet`/`storeDelete` encode by the
plain map semantics. -/

abbrev SecretStore := List (String × String)

structure VaultEnv where
  findRoot : String → Option String

structure CredentialSetRequest where
  file_path : String
  target : CredentialTarget
  profile : Option String
  kind : CredentialKind
  value : String

def storeGet (st : SecretStore) (k : String) : Option String := st.lookup k

def storeSet (st : SecretStore) (k v : String) : SecretStore :=
  (k, v) :: st.filter (fun p => p.1 ≠ k)

def storeDelete (st : SecretStore) (k : String) : SecretStore :=
  st.filter (fun p => p.1 ≠ k)

/-- `set_credential`: blank values are rejected, then the project root is
re-derived and the trimmed value stored under the derived key. -/
def set_credential (env : VaultEnv) (st : SecretStore)
    (req : CredentialSetRequest) : SecretStore × Except String Unit :=
  if strTrim req.value = "" then (st, .error "Credential value is empty")
  else
    match env.findRoot req.file_path with
    | none => (st, .error "No .export.toml found in parent folders")
    | some root =>
        (storeSet st (credential_key root req.target req.profile req.kind)
          (strTrim req.value), .ok ())

/-- `delete_credential`: `NoEntry` maps to success, so deletion is the plain
map removal. -/
def delete_credential (env : VaultEnv) (st : SecretStore) (filePath : String)
    (target : CredentialTarget) (profile : Option String)
    (kind : CredentialKind) : SecretStore × Except String Unit :=
  match env.findRoot filePath with
  | none => (st, .error "No .export.toml found in parent folders")
  | some root =>
      (storeDelete st (credential_key root target profile kind), .ok ())

/-- `lookup_credential`: `NoEntry` maps to `Ok(None)`. -/
def lookup_credential (env : VaultEnv) (st : SecretStore) (filePath : String)
    (target : CredentialTarget) (profile : Option String)
    (kind : CredentialKind) : Except String (Option String) :=
  match env.findRoot filePath with
  | none => .error "No .export.toml found in parent folders"
  | some root => .ok (storeGet st (credential_key root target profile kind))

/-! ## Publish companion (`publish.rs`) -/

structure PublishRequest where
  project_root : String
  files : List String
  output_dir : Option String

structure PublishResponse where
  ok : Bool
  summary : String
  warnings : List String
deriving Repr, DecidableEq

structure PublishEnv where
  pathExists : FsPath → Bool
  isDir : FsPath → Bool
  isFile : FsPath → Bool
  canon : FsPath → Except String FsPath
  readFile : FsPath → String
  createDirAll : FsPath → Except String Unit
  copyFile : FsPath → FsPath → Except String Unit
  appendLog : Except String Unit

structure PublishOut where
  result : Except String PublishResponse
  copies : List (FsPath × FsPath)
deriving Repr, DecidableEq

def findClose : List Char → Option (List Char × List Char)
  | [] => none
  | c :: rest =>
      if c = ')' then some ([], rest)
      else (findClose rest).map (fun p => (c :: p.1, p.2))

def trimMatchesChar (c : Char) (s : String) : String :=
  let l1 := s.data.dropWhile (· == c)
  String.mk ((l1.reverse.dropWhile (· == c)).reverse)

def splitWhitespaceHead (s : String) : String :=
  ((splitBy Char.isWhitespace s).filter (· ≠ "")).headD ""

def processAssetTarget (raw : String) : String :=
  let trimmed := strTrim raw
  strTrim (splitWhitespaceHead (trimMatchesChar '>' (trimMatchesChar '<' trimmed)))

def keepAsset (t : String) : Bool :=
  t != "" && !(strStartsWith t "http://") && !(strStartsWith t "https://") &&
    !(strStartsWith t "mailto:") && !(strStartsWith t "tel:") &&
    !(strStartsWith t "#")

def extractAux : Nat → List Char → List String
  | 0, _ => []
  | _ + 1, [] => []
  | fuel + 1, ']' :: '(' :: rest =>
      (match findClose rest with
       | none => []
       | some (inside, after) =>
           let target := processAssetTarget (String.mk inside)
           (if keepAsset target then [target] else []) ++ extractAux fuel after)
  | fuel + 1, _ :: rest => extractAux fuel rest

def extract_local_assets (content : String) : List String :=
  extractAux content.length content.data

def stripLeadingSlashes (s : String) : String :=
  String.mk (s.data.dropWhile (· == '/'))

def FsPath.parentOpt (p : FsPath) : Option FsPath :=
  match p.comps with
  | [] => none
  | _ :: _ => some ⟨p.absolute, p.comps.dropLast⟩

/-- `resolve_asset_path`: a leading slash is project-root relative, anything
else is relative to the containing file's directory.  Note: the result is
NOT canonicalized. -/
def resolve_asset_path (projectRoot filePath : FsPath) (asset : String) :
    Option FsPath :=
  let trimmed := strTrim asset
  if trimmed = "" then none
  else if strStartsWith trimmed "/" then
    some (projectRoot.join (FsPath.parse (stripLeadingSlashes trimmed)))
  else
    (filePath.parentOpt).map (fun parent => parent.join (FsPath.parse trimmed))

def resolve_output_dir (projectRoot : FsPath) (outputDir : Option String) :
    Except String FsPath :=
  let value := strTrim (outputDir.getD "_publish")
  if value = "" then .error "Publish directory cannot be empty"
  else
    let path := FsPath.parse value
    if path.absolute then .ok path else .ok (projectRoot.join path)

structure PubState where
  warnings : List String
  copiedFiles : Nat
  copiedAssets : Nat
  assetsSeen : List FsPath
  copies : List (FsPath × FsPath)
deriving Repr, DecidableEq

def publishAssets (env : PublishEnv) (rootCanon outCanon fileCanon : FsPath) :
    List String → PubState → Except String PubState
  | [], st => .ok st
  | asset :: rest, st =>
    match resolve_asset_path rootCanon fileCanon asset with
    | none => publishAssets env rootCanon outCanon fileCanon rest st
    | some assetPath =>
      if !(env.pathExists assetPath) then
        publishAssets env rootCanon outCanon fileCanon rest
          { st with warnings := st.warnings ++ ["Missing asset: " ++ asset] }
      else if !(env.isFile assetPath) then
        publishAssets env rootCanon outCanon fileCanon rest st
      else if !(assetPath.startsWith rootCanon) then
        publishAssets env rootCanon outCanon fileCanon rest
          { st with warnings :=
              st.warnings ++ ["Skipped asset outside project: " ++ asset] }
      else if assetPath ∈ st.assetsSeen then
        publishAssets env rootCanon outCanon fileCanon rest st
      else
        let relAsset : FsPath :=
          ⟨false, assetPath.comps.drop rootCanon.comps.length⟩
        let targetAsset := outCanon.join relAsset
        match env.createDirAll targetAsset.parent with
        | .error e => .error e
        | .ok _ =>
          match env.copyFile assetPath targetAsset with
          | .error e => .error e
          | .ok _ =>
            publishAssets env rootCanon outCanon fileCanon rest
              { st with
                  assetsSeen := st.assetsSeen ++ [assetPath],
                  copiedAssets := st.copiedAssets + 1,
                  copies := st.copies ++ [(assetPath, targetAsset)] }

def publishFiles (env : PublishEnv) (rootCanon outCanon : FsPath) :
    List String → PubState → Except String PubState
  | [], st => .ok st
  | file :: rest, st =>
    let filePath := FsPath.parse file
    if !(env.pathExists filePath) then
      publishFiles env rootCanon outCanon rest
        { st with warnings := st.warnings ++ ["File not found: " ++ file] }
    else
      match env.canon filePath with
      | .error e => .error e
      | .ok fileCanon =>
        if !(fileCanon.startsWith rootCanon) then
          publishFiles env rootCanon outCanon rest
            { st with warnings :=
                st.warnings ++ ["Skipped file outside project: " ++ file] }
        else
          let relative : FsPath :=
            ⟨false, fileCanon.comps.drop rootCanon.comps.length⟩
          let target := outCanon.join relative
          match env.createDirAll target.parent with
          | .error e => .error e
          | .ok _ =>
            match env.copyFile fileCanon target with
            | .error e => .error e
            | .ok _ =>
              let st := { st with
                  copiedFiles := st.copiedFiles + 1,
                  copies := st.copies ++ [(fileCanon, target)] }
              let content := env.readFile fileCanon
              let assets := extract_local_assets content
              match publishAssets env rootCanon outCanon fileCanon assets st with
              | .error e => .error e
              | .ok st2 => publishFiles env rootCanon outCanon rest st2

def publish_project (env : PublishEnv) (request : PublishRequest) :
    PublishOut :=
  let projectRoot := FsPath.parse request.project_root
  if !(env.pathExists projectRoot) || !(env.isDir projectRoot) then
    ⟨.error "Project root is missing", []⟩
  else if request.files = [] then
    ⟨.error "No files selected for publish", []⟩
  else
    match resolve_output_dir projectRoot request.output_dir with
    | .error e => ⟨.error e, []⟩
    | .ok outputDir =>
      match env.createDirAll outputDir with
      | .error e => ⟨.error e, []⟩
      | .ok _ =>
        match env.canon projectRoot with
        | .error e => ⟨.error e, []⟩
        | .ok rootCanon =>
          match env.canon outputDir with
          | .error e => ⟨.error e, []⟩
          | .ok outCanon =>
            if !(outCanon.startsWith rootCanon) then
              ⟨.error "Publish directory must stay inside the project root",
               []⟩
            else
              match publishFiles env rootCanon outCanon request.files
                  ⟨[], 0, 0, [], []⟩ with
              | .error e => ⟨.error e, []⟩
              | .ok st =>
                match env.appendLog with
                | .error e => ⟨.error e, st.copies⟩
                | .ok _ =>
                    ⟨.ok ⟨true,
                      "Published " ++ toString st.copiedFiles ++
                        " file(s) and " ++ toString st.copiedAssets ++
                        " asset(s)", st.warnings⟩, st.copies⟩

/-- A terminal response produced by cancellation: not ok, the
`ExportCancelled` code, and a warning log entry appended last. -/
def IsCancelled (r : ExportResponse) : Prop :=
  r.ok = false ∧
  r.error = some ⟨.exportCancelled, "Export cancelled", none⟩ ∧
  r.logs.getLast? = some ⟨.warn, "Export cancelled", none⟩

/-! ## Chunked reads of a regular file

A regular local file of size `n` delivers successive reads of
`min 8192 remaining` bytes; `chunks8192 n` is that read sequence, used to
state the streaming-progress claim. -/

def chunksAux : Nat → Nat → List Nat
  | 0, _ => []
  | _ + 1, 0 => []
  | fuel + 1, n + 1 =>
      min 8192 (n + 1) :: chunksAux fuel ((n + 1) - min 8192 (n + 1))

def chunks8192 (n : Nat) : List Nat := chunksAux n n

/-- The progress events a complete streaming upload of chunk sizes `cs`
starting from `sent` bytes would emit. -/
def expectedEvents (jobId : String) (total : Nat) :
    Nat → List Nat → List ExportProgress
  | _, [] => []
  | sent, c :: cs =>
      ⟨jobId, sent + c, total, progressPercent (sent + c) total⟩ ::
        expectedEvents jobId total (sent + c) cs

/-! ## Concrete oracle fixtures used by evaluation witnesses -/

def okSftpEnv : SftpEnv :=
  ⟨.ok (), .ok (), .ok (), true, .ok (), true, .ok (), .ok (), .ok (), []⟩

def okGitEnv : GitEnv :=
  ⟨.ok "true", .ok "", .ok ⟨true, ["proj"]⟩, .ok "", .ok ""⟩

def okFtpEnv : FtpEnv := ⟨.ok none, "user", none, .ok 0, okSftpEnv, .ok ()⟩

def okNetlifyEnv : NetlifyEnv := ⟨.ok (some "tok"), .ok ⟨true, "200 OK", none⟩⟩

def okVercelEnv : VercelEnv := ⟨.ok ⟨true, "200 OK", none⟩⟩

/-- A version-1 config whose vercel section is enabled with a project name
but no deploy hook URL. -/
def vercelHookMissingConfig : ExportConfig :=
  ⟨1, none, none, none, some ⟨true, some "app", none, .production⟩⟩

def envC2 : PipelineEnv :=
  ⟨true, some ⟨true, ["proj"]⟩, .ok "", .ok vercelHookMissingConfig,
   okGitEnv, okFtpEnv, okNetlifyEnv, okVercelEnv⟩

/-! ## Publish fixture: a project whose selected file references an asset
through a `..` component that resolves outside the project root. -/

def pubRoot : FsPath := ⟨true, ["proj"]⟩

def pubDoc : FsPath := ⟨true, ["proj", "doc.md"]⟩

/-- The uncanonicalized joined asset path `/proj/../secret.txt`. -/
def pubAsset : FsPath := ⟨true, ["proj", "..", "secret.txt"]⟩

/-- Its canonical form `/secret.txt`, outside the project root. -/
def pubSecret : FsPath := ⟨true, ["secret.txt"]⟩

def pubOut : FsPath := ⟨true, ["proj", "_publish"]⟩

def publishTraversalEnv : PublishEnv :=
  { pathExists := fun p =>
      p == pubRoot || p == pubDoc || p == pubAsset || p == pubOut
    isDir := fun p => p == pubRoot || p == pubOut
    isFile := fun p => p == pubDoc || p == pubAsset
    canon := fun p =>
      if p == pubRoot then .ok pubRoot
      else if p == pubDoc then .ok pubDoc
      else if p == pubOut then .ok pubOut
      else if p == pubAsset then .ok pubSecret
      else .error "No such file or directory"
    readFile := fun p => if p == pubDoc then "![x](../secret.txt)" else ""
    createDirAll := fun _ => .ok ()
    copyFile := fun _ _ => .ok ()
    appendLog := .ok () }

theorem splitColon_append (p r : List Char) (hp : ':' ∉ p) :
    splitColon (p ++ ':' :: r) = (p, r) := by
  induction p with
  | nil => simp [splitColon]
  | cons c cs ih =>
      have hc : c ≠ ':' := fun h => hp (h ▸ List.mem_cons_self c cs)
      have hcs : ':' ∉ cs := fun h => hp (List.mem_cons_of_mem c h)
      simp [splitColon, hc, ih hcs]

theorem asStr_no_colon (t : CredentialTarget) : ':' ∉ t.asStr.data := by
  cases t <;> decide

theorem kind_no_colon (k : CredentialKind) : ':' ∉ k.asStr.data := by
  cases k <;> decide

theorem hexChar_ne_colon (n : Nat) : hexChar n ≠ ':' := by
  by_cases h : n < 16
  · interval_cases n <;> decide
  · rw [hexChar, List.getD_eq_default]
    · decide
    · simpa using Nat.le_of_not_lt h

theorem sha256hex_no_colon (s : String) : ':' ∉ (sha256hex s).data := by
  intro hmem
  simp only [sha256hex, hexEncode, List.mem_flatten] at hmem
  obtain ⟨l, hl, hcl⟩ := hmem
  simp only [List.mem_map] at hl
  obtain ⟨b, _, hb⟩ := hl
  subst hb
  simp only [List.mem_cons, List.not_mem_nil, or_false] at hcl
  rcases hcl with h | h <;> exact hexChar_ne_colon _ h.symm

theorem credential_key_data (r : String) (t : CredentialTarget)
    (p : Option String) (k : CredentialKind) :
    (credential_key r t p k).data =
      t.asStr.data ++ ':' :: (k.asStr.data ++ ':' ::
        ((p.getD "default").data ++ ':' :: (sha256hex r).data)) := by
  simp [credential_key, String.data_append]

theorem asStr_data_inj (t1 t2 : CredentialTarget)
    (h : t1.asStr.data = t2.asStr.data) : t1 = t2 := by
  cases t1 <;> cases t2 <;> first | rfl | exact absurd h (by decide)

theorem kind_data_inj (k1 k2 : CredentialKind)
    (h : k1.asStr.data = k2.asStr.data) : k1 = k2 := by
  cases k1 <;> cases k2 <;> first | rfl | exact absurd h (by decide)

theorem no_colon_reverse {l : List Char} (h : ':' ∉ l) : ':' ∉ l.reverse := by
  simpa using h

/-- Full decomposition: equal credential keys force equal targets, kinds,
resolved profile strings, and hex digests. -/
theorem credential_key_inj (r1 r2 : String) (t1 t2 : CredentialTarget)
    (p1 p2 : Option String) (k1 k2 : CredentialKind)
    (h : credential_key r1 t1 p1 k1 = credential_key r2 t2 p2 k2) :
    t1 = t2 ∧ k1 = k2 ∧ p1.getD "default" = p2.getD "default" ∧
      sha256hex r1 = sha256hex r2 := by
  have hd := congrArg String.data h
  rw [credential_key_data, credential_key_data] at hd
  have h1 := congrArg splitColon hd
  rw [splitColon_append _ _ (asStr_no_colon t1),
      splitColon_append _ _ (asStr_no_colon t2)] at h1
  obtain ⟨ht, hrest⟩ := Prod.mk.injEq .. ▸ h1
  have h2 := congrArg splitColon hrest
  rw [splitColon_append _ _ (kind_no_colon k1),
      splitColon_append _ _ (kind_no_colon k2)] at h2
  obtain ⟨hk, hrest2⟩ := Prod.mk.injEq .. ▸ h2
  have h3 := congrArg (fun l => splitColon l.reverse) hrest2
  simp only [List.reverse_append, List.reverse_cons] at h3
  rw [List.append_assoc, List.append_assoc] at h3
  simp only [List.nil_append, List.singleton_append] at h3
  rw [splitColon_append _ _ (no_colon_reverse (sha256hex_no_colon r1)),
      splitColon_append _ _ (no_colon_reverse (sha256hex_no_colon r2))] at h3
  obtain ⟨hh, hp⟩ := Prod.mk.injEq .. ▸ h3
  refine ⟨asStr_data_inj _ _ ht, kind_data_inj _ _ hk, ?_, ?_⟩
  · have : (p1.getD "default").data = (p2.getD "default").data := by
      have := congrArg List.reverse hp
      simpa using this
    cases hg1 : p1.getD "default" with
    | mk d1 => cases hg2 : p2.getD "default" with
      | mk d2 =>
          rw [hg1, hg2] at this
          exact congrArg String.mk (by simpa using this)
  · have hrev : (sha256hex r1).data = (sha256hex r2).data := by
      have := congrArg List.reverse hh
      simpa using this
    cases hx1 : sha256hex r1 with
    | mk d1 => cases hx2 : sha256hex r2 with
      | mk d2 =>
          rw [hx1, hx2] at hrev
          exact congrArg String.mk (by simpa using hrev)

/-- C1 (counterexample to the claim as stated): changing the profile input
from `none` to `some "default"` does not change the derived credential key,
because both resolve to the profile part `"default"`. -/
theorem credential_key_profile_input_collision :
    (some "default" ≠ (none : Option String)) ∧
    credential_key "/home/u/proj" .ftp (some "default") .password =
      credential_key "/home/u/proj" .ftp none .password :=
  ⟨by decide, rfl⟩

/-- C1 (amended): the derived credential key is a pure function of
(project root, target, profile, kind) and equals
`target:kind:(profile or "default"):hex(sha256(root))`; identical inputs give
identical keys; changing the target or the kind always changes the key;
changing the profile changes the key whenever the resolved profile string
(the profile, or "default" when none is given) changes; and changing the
project root changes the key whenever the roots' SHA-256 hex digests
differ. -/
theorem credential_key_spec :
    (∀ (r : String) (t : CredentialTarget) (p : Option String)
        (k : CredentialKind),
      credential_key r t p k =
        t.asStr ++ ":" ++ k.asStr ++ ":" ++ (p.getD "default") ++ ":" ++
          sha256hex r)
    ∧ (∀ r1 r2 t1 t2 p1 p2 k1 k2, r1 = r2 → t1 = t2 → p1 = p2 → k1 = k2 →
        credential_key r1 t1 p1 k1 = credential_key r2 t2 p2 k2)
    ∧ (∀ (r : String) (p : Option String) (k : CredentialKind) t1 t2,
        t1 ≠ t2 → credential_key r t1 p k ≠ credential_key r t2 p k)
    ∧ (∀ (r : String) (p : Option String) (t : CredentialTarget) k1 k2,
        k1 ≠ k2 → credential_key r t p k1 ≠ credential_key r t p k2)
    ∧ (∀ (r : String) (t : CredentialTarget) (k : CredentialKind) p1 p2,
        p1.getD "default" ≠ p2.getD "default" →
        credential_key r t p1 k ≠ credential_key r t p2 k)
    ∧ (∀ (t : CredentialTarget) (p : Option String) (k : CredentialKind) r1 r2,
        sha256hex r1 ≠ sha256hex r2 →
        credential_key r1 t p k ≠ credential_key r2 t p k) := by
  refine ⟨fun r t p k => rfl, ?_, ?_, ?_, ?_, ?_⟩
  · intro r1 r2 t1 t2 p1 p2 k1 k2 h1 h2 h3 h4
    subst h1; subst h2; subst h3; subst h4; rfl
  · intro r p k t1 t2 hne heq
    exact hne (credential_key_inj _ _ _ _ _ _ _ _ heq).1
  · intro r p t k1 k2 hne heq
    exact hne (credential_key_inj _ _ _ _ _ _ _ _ heq).2.1
  · intro r t k p1 p2 hne heq
    exact hne (credential_key_inj _ _ _ _ _ _ _ _ heq).2.2.1
  · intro t p k r1 r2 hne heq
    exact hne (credential_key_inj _ _ _ _ _ _ _ _ heq).2.2.2

set_option maxRecDepth 40000 in
/-- Witness for `credential_key_spec` at concrete inputs: distinct targets
give distinct keys, and two concrete roots with distinct digests give
distinct keys. -/
theorem credential_key_spec_witness :
    credential_key "/home/u/proj" .ftp none .password ≠
      credential_key "/home/u/proj" .git none .password ∧
    credential_key "/home/u/a" .ftp none .password ≠
      credential_key "/home/u/b" .ftp none .password :=
  ⟨credential_key_spec.2.2.1 "/home/u/proj" none .password .ftp .git (by decide),
   credential_key_spec.2.2.2.2.2 .ftp none .password "/home/u/a" "/home/u/b"
     (by decide)⟩

/-! ## Assoc-list store lemmas (shared by the registry and the vault) -/

theorem lookup_filter_ne {β : Type} (l : List (String × β)) (key : String) :
    List.lookup key (l.filter (fun p => p.1 ≠ key)) = none := by
  induction l with
  | nil => rfl
  | cons hd tl ih =>
      obtain ⟨a, b⟩ := hd
      by_cases h : a = key
      · rw [List.filter_cons_of_neg (by simpa using h)]
        exact ih
      · rw [List.filter_cons_of_pos (by simpa using h), List.lookup,
          beq_eq_false_iff_ne.mpr (fun e => h e.symm)]
        exact ih

theorem lookup_none_filter_eq {β : Type} (l : List (String × β)) (key : String)
    (h : List.lookup key l = none) : l.filter (fun p => p.1 ≠ key) = l := by
  induction l with
  | nil => rfl
  | cons hd tl ih =>
      obtain ⟨a, b⟩ := hd
      rw [List.lookup] at h
      cases hba : (key == a) with
      | true => rw [hba] at h; exact absurd h (by simp)
      | false =>
          rw [hba] at h
          have hne : a ≠ key := fun e => by simp [e] at hba
          rw [List.filter_cons_of_pos (by simpa using hne), ih h]

theorem lookup_map_set (reg : JobRegistry) (jobId : String) (b : Bool)
    (h : List.lookup jobId reg = some b) :
    List.lookup jobId
      (reg.map (fun p => if p.1 = jobId then (p.1, true) else p)) =
      some true := by
  induction reg with
  | nil => simp [List.lookup] at h
  | cons hd tl ih =>
      obtain ⟨a, c⟩ := hd
      rw [List.map_cons]
      by_cases hk : a = jobId
      · have hmap : (if (a, c).1 = jobId then ((a, c).1, true) else (a, c)) =
            (a, true) := by simp [hk]
        rw [hmap, List.lookup, beq_iff_eq.mpr hk.symm]
      · have hmap : (if (a, c).1 = jobId then ((a, c).1, true) else (a, c)) =
            (a, c) := by simp [hk]
        have hbeq : (jobId == a) = false :=
          beq_eq_false_iff_ne.mpr (fun e => hk e.symm)
        rw [hmap, List.lookup, hbeq]
        rw [List.lookup, hbeq] at h
        exact ih h

/-! ## C7: job registry -/

/-- C7: `cancel(jobId)` sets the job's flag and succeeds exactly when the id
is registered, failing with the "Unknown export job" error otherwise;
`cleanup(jobId)` unconditionally removes the entry, is idempotent and safe
on unknown ids; completing a job emits the finished event and leaves the
registry untouched, so only cleanup removes entries. -/
theorem export_jobs_spec :
    (∀ (reg : JobRegistry) (jobId : String) (b : Bool),
        List.lookup jobId reg = some b →
        (jobsCancel reg jobId).2 = .ok () ∧
        List.lookup jobId (jobsCancel reg jobId).1 = some true)
    ∧ (∀ (reg : JobRegistry) (jobId : String),
        List.lookup jobId reg = none →
        jobsCancel reg jobId = (reg, .error "Unknown export job"))
    ∧ (∀ (reg : JobRegistry) (jobId : String),
        List.lookup jobId (jobsRemove reg jobId) = none)
    ∧ (∀ (reg : JobRegistry) (jobId : String),
        jobsRemove (jobsRemove reg jobId) jobId = jobsRemove reg jobId)
    ∧ (∀ (reg : JobRegistry) (jobId : String),
        List.lookup jobId reg = none → jobsRemove reg jobId = reg)
    ∧ (∀ (reg : JobRegistry) (jobId : String) (r : ExportResponse),
        completeJob reg jobId r = (reg, ⟨jobId, r⟩)) := by
  refine ⟨?_, ?_, ?_, ?_, ?_, ?_⟩
  · intro reg jobId b h
    rw [jobsCancel, h]
    exact ⟨rfl, lookup_map_set reg jobId b h⟩
  · intro reg jobId h
    rw [jobsCancel, h]
  · intro reg jobId
    exact lookup_filter_ne reg jobId
  · intro reg jobId
    rw [jobsRemove, jobsRemove, lookup_none_filter_eq _ _ (lookup_filter_ne reg jobId)]
  · intro reg jobId h
    exact lookup_none_filter_eq reg jobId h
  · intro reg jobId r
    rfl

/-- Witness for `export_jobs_spec` on a concrete two-job registry. -/
theorem export_jobs_spec_witness :
    (jobsCancel [("a", false), ("b", false)] "a").2 = .ok () ∧
    List.lookup "a" (jobsCancel [("a", false), ("b", false)] "a").1 =
      some true ∧
    jobsCancel [("a", false)] "b" =
      ([("a", false)], .error "Unknown export job") ∧
    jobsRemove [("a", true)] "b" = [("a", true)] := by
  refine ⟨(export_jobs_spec.1 _ "a" false (by decide)).1,
    (export_jobs_spec.1 _ "a" false (by decide)).2,
    export_jobs_spec.2.1 _ "b" (by decide),
    export_jobs_spec.2.2.2.2.1 _ "b" (by decide)⟩

/-! ## C8: credential vault round-trip -/

/-- C8: for a derivable key, setting a non-blank value then getting it
returns the trimmed value; blank values are rejected; delete followed by get
yields the distinguished not-found outcome `Ok none`; and delete on an
absent key is idempotent success leaving the store unchanged. -/
theorem credential_vault_spec :
    ∀ (env : VaultEnv) (st : SecretStore) (doc root : String)
      (t : CredentialTarget) (p : Option String) (k : CredentialKind)
      (v : String),
      env.findRoot doc = some root →
      (strTrim v ≠ "" →
        (set_credential env st ⟨doc, t, p, k, v⟩).2 = .ok () ∧
        lookup_credential env (set_credential env st ⟨doc, t, p, k, v⟩).1
          doc t p k = .ok (some (strTrim v)))
      ∧ (strTrim v = "" →
          set_credential env st ⟨doc, t, p, k, v⟩ =
            (st, .error "Credential value is empty"))
      ∧ ((delete_credential env st doc t p k).2 = .ok () ∧
          lookup_credential env (delete_credential env st doc t p k).1
            doc t p k = .ok none)
      ∧ (storeGet st (credential_key root t p k) = none →
          delete_credential env st doc t p k = (st, .ok ())) := by
  intro env st doc root t p k v hroot
  refine ⟨?_, ?_, ?_, ?_⟩
  · intro hv
    simp only [set_credential, if_neg hv, hroot]
    refine ⟨trivial, ?_⟩
    simp only [lookup_credential, hroot, storeGet, storeSet]
    rw [List.lookup.eq_def]
    simp
  · intro hv
    rw [set_credential, if_pos hv]
  · constructor
    · simp only [delete_credential, hroot]
    · simp only [delete_credential, lookup_credential, hroot, storeGet,
        storeDelete]
      rw [lookup_filter_ne]
  · intro habsent
    rw [storeGet] at habsent
    simp only [delete_credential, hroot, storeDelete]
    rw [lookup_none_filter_eq _ _ habsent]

/-- Witness for `credential_vault_spec` on a concrete store. -/
theorem credential_vault_spec_witness :
    (set_credential ⟨fun _ => some "/r"⟩ [] ⟨"/r/d.md", .ftp, none, .password, " pw "⟩).2 = .ok () ∧
    lookup_credential ⟨fun _ => some "/r"⟩
      (set_credential ⟨fun _ => some "/r"⟩ [] ⟨"/r/d.md", .ftp, none, .password, " pw "⟩).1
      "/r/d.md" .ftp none .password = .ok (some "pw") ∧
    (delete_credential ⟨fun _ => some "/r"⟩ [] "/r/d.md" .ftp none .password) = ([], .ok ()) :=
  ⟨((credential_vault_spec ⟨fun _ => some "/r"⟩ [] "/r/d.md" "/r" .ftp none
      .password " pw " rfl).1 (by decide)).1,
   ((credential_vault_spec ⟨fun _ => some "/r"⟩ [] "/r/d.md" "/r" .ftp none
      .password " pw " rfl).1 (by decide)).2,
   (credential_vault_spec ⟨fun _ => some "/r"⟩ [] "/r/d.md" "/r" .ftp none
      .password " pw " rfl).2.2.2 rfl⟩

/-! ## C2: config validation order -/

theorem validateFtpProfiles_ok_iff (l : List (String × FtpProfile)) :
    validateFtpProfiles l = .ok () ↔
      ∀ nm prof, (nm, prof) ∈ l → prof.enabled = true →
        prof.host ≠ none := by
  induction l with
  | nil => simp [validateFtpProfiles]
  | cons hd tl ih =>
      obtain ⟨nm0, p0⟩ := hd
      rw [validateFtpProfiles]
      by_cases h : (p0.enabled && p0.host.isNone) = true
      · simp only [if_pos h]
        obtain ⟨he, hh⟩ := Bool.and_eq_true_iff.mp h
        constructor
        · intro hcontra; cases hcontra
        · intro hall
          exact absurd (Option.isNone_iff_eq_none.mp hh)
            (hall nm0 p0 (List.mem_cons_self _ _) he)
      · simp only [if_neg h]
        rw [ih]
        constructor
        · intro hall nm prof hmem hen
          rcases List.mem_cons.mp hmem with heq | hmem2
          · cases heq
            intro hn
            exact h (by simp [hen, hn])
          · exact hall nm prof hmem2 hen
        · intro hall nm prof hmem hen
          exact hall nm prof (List.mem_cons_of_mem _ hmem) hen

/-- Netlify semantic check passes. -/
theorem validate_of_netlify_ok (c : ExportConfig)
    (h : ∀ n, c.netlify = some n → n.enabled = true → n.site_id ≠ none) :
    (match c.netlify with
     | some n => n.enabled && n.site_id.isNone
     | none => false) = false := by
  cases hn : c.netlify with
  | none => rfl
  | some n =>
      cases he : n.enabled with
      | false => simp [he]
      | true =>
          change (n.enabled && n.site_id.isNone) = false
          rw [he, Bool.true_and]
          exact Bool.eq_false_iff.mpr
            (fun hh => h n hn he (Option.isNone_iff_eq_none.mp hh))

/-- C2: `validate` applies its checks in source order with the first failure
winning: version ≠ 1 ⇒ UnsupportedVersion regardless of the rest; then
netlify enabled without site id; then vercel enabled missing project name or
deploy-hook URL; then the first enabled ftp profile without a host; a config
passing all checks validates, and in the pipeline a vercel section with
`enabled` and no deploy-hook URL is rejected at `validate` with
`ConfigInvalid` before any adapter runs (no git command, no progress
event). -/
theorem export_config_validation_spec :
    (∀ c : ExportConfig, c.version ≠ 1 →
        c.validate = .error (.unsupportedVersion c.version))
    ∧ (∀ (c : ExportConfig) (n : NetlifyConfig), c.version = 1 →
        c.netlify = some n → n.enabled = true → n.site_id = none →
        c.validate = .error .invalidNetlifyConfig)
    ∧ (∀ (c : ExportConfig) (v : VercelConfig), c.version = 1 →
        (∀ n, c.netlify = some n → n.enabled = true → n.site_id ≠ none) →
        c.vercel = some v → v.enabled = true →
        (v.project_name = none ∨ v.deploy_hook_url = none) →
        c.validate = .error .invalidVercelConfig)
    ∧ (∀ c : ExportConfig, c.version = 1 →
        (∀ n, c.netlify = some n → n.enabled = true → n.site_id ≠ none) →
        (∀ v, c.vercel = some v → v.enabled = true →
          v.project_name ≠ none ∧ v.deploy_hook_url ≠ none) →
        (c.validate = .ok () ↔
          ∀ f, c.ftp = some f → ∀ nm prof, (nm, prof) ∈ f.profiles →
            prof.enabled = true → prof.host ≠ none))
    ∧ (∀ (jobId : String) (request : ExportRequest) (cancel : Nat → Bool)
        (env : PipelineEnv) (raw : String) (config : ExportConfig)
        (v : VercelConfig) (out : AdapterOut),
        out = run_export jobId request cancel env →
        cancel 0 = false → env.fileExists = true →
        (∃ root, env.findRoot = some root) → env.readConfig = .ok raw →
        env.parseConfig = .ok config → config.version = 1 →
        (∀ n, config.netlify = some n → n.enabled = true →
          n.site_id ≠ none) →
        config.vercel = some v → v.enabled = true →
        v.deploy_hook_url = none →
        out.resp.ok = false ∧
        (out.resp.error.map (fun e => e.code) =
          some ExportErrorCode.configInvalid) ∧
        out.gitTrace = [] ∧ out.events = []) := by
  have hver : ∀ c : ExportConfig, c.version ≠ 1 →
      c.validate = .error (.unsupportedVersion c.version) := by
    intro c h
    rw [ExportConfig.validate, if_pos h]
  have hnet : ∀ (c : ExportConfig) (n : NetlifyConfig), c.version = 1 →
      c.netlify = some n → n.enabled = true → n.site_id = none →
      c.validate = .error .invalidNetlifyConfig := by
    intro c n hv hcn he hs
    rw [ExportConfig.validate, if_neg (by simp [hv])]
    rw [if_pos (by simp [hcn, he, hs])]
  have hverc : ∀ (c : ExportConfig) (v : VercelConfig), c.version = 1 →
      (∀ n, c.netlify = some n → n.enabled = true → n.site_id ≠ none) →
      c.vercel = some v → v.enabled = true →
      (v.project_name = none ∨ v.deploy_hook_url = none) →
      c.validate = .error .invalidVercelConfig := by
    intro c v hv hn hcv he hmiss
    rw [ExportConfig.validate, if_neg (by simp [hv]),
      if_neg (by rw [validate_of_netlify_ok c hn]; exact Bool.false_ne_true)]
    rcases hmiss with hp | hd
    · rw [if_pos (by simp [hcv, he, hp])]
    · by_cases hp : v.project_name = none
      · rw [if_pos (by simp [hcv, he, hp])]
      · rw [if_neg (by simp [hcv, he, Option.isNone_iff_eq_none, hp]),
          if_pos (by simp [hcv, he, hd])]
  have hok : ∀ c : ExportConfig, c.version = 1 →
      (∀ n, c.netlify = some n → n.enabled = true → n.site_id ≠ none) →
      (∀ v, c.vercel = some v → v.enabled = true →
        v.project_name ≠ none ∧ v.deploy_hook_url ≠ none) →
      (c.validate = .ok () ↔
        ∀ f, c.ftp = some f → ∀ nm prof, (nm, prof) ∈ f.profiles →
          prof.enabled = true → prof.host ≠ none) := by
    intro c hv hn hverc2
    rw [ExportConfig.validate, if_neg (by simp [hv]),
      if_neg (by rw [validate_of_netlify_ok c hn]; exact Bool.false_ne_true)]
    have hvc1 : (match c.vercel with
        | some v => v.enabled && v.project_name.isNone
        | none => false) = false := by
      cases hcv : c.vercel with
      | none => rfl
      | some v =>
          cases he : v.enabled with
          | false => simp [he]
          | true =>
              change (v.enabled && v.project_name.isNone) = false
              rw [he, Bool.true_and]
              exact Bool.eq_false_iff.mpr
                (fun hh => (hverc2 v hcv he).1 (Option.isNone_iff_eq_none.mp hh))
    have hvc2 : (match c.vercel with
        | some v => v.enabled && v.deploy_hook_url.isNone
        | none => false) = false := by
      cases hcv : c.vercel with
      | none => rfl
      | some v =>
          cases he : v.enabled with
          | false => simp [he]
          | true =>
              change (v.enabled && v.deploy_hook_url.isNone) = false
              rw [he, Bool.true_and]
              exact Bool.eq_false_iff.mpr
                (fun hh => (hverc2 v hcv he).2 (Option.isNone_iff_eq_none.mp hh))
    rw [if_neg (by rw [hvc1]; exact Bool.false_ne_true),
      if_neg (by rw [hvc2]; exact Bool.false_ne_true)]
    cases hcf : c.ftp with
    | none => simp
    | some f =>
        show validateFtpProfiles f.profiles = Except.ok () ↔ _
        rw [validateFtpProfiles_ok_iff]
        constructor
        · intro hall f2 hf2
          injection hf2 with hf2e
          subst hf2e
          exact hall
        · intro hall
          exact hall f rfl
  refine ⟨hver, hnet, hverc, hok, ?_⟩
  intro jobId request cancel env raw config v out hout hc0 hfe hroot hraw
    hcfg hv hn hcv he hd
  obtain ⟨root, hroot⟩ := hroot
  have hval : config.validate = .error .invalidVercelConfig :=
    hverc config v hv hn hcv he (Or.inr hd)
  rw [run_export] at hout
  simp only [hc0, hfe, hroot, hraw, hcfg, hval, Bool.not_true,
    if_false] at hout
  subst hout
  exact ⟨rfl, rfl, rfl, rfl⟩

/-- Witness for `export_config_validation_spec`: a concrete pipeline run
against a config whose vercel deploy-hook URL is missing is rejected with
`ConfigInvalid` and performs no adapter work. -/
theorem export_config_validation_spec_witness :
    (run_export "job" ⟨"/proj/doc.md", .vercel, none⟩ (fun _ => false)
      envC2).resp.ok = false ∧
    ((run_export "job" ⟨"/proj/doc.md", .vercel, none⟩ (fun _ => false)
      envC2).resp.error.map (fun e => e.code) =
        some ExportErrorCode.configInvalid) ∧
    (run_export "job" ⟨"/proj/doc.md", .vercel, none⟩ (fun _ => false)
      envC2).gitTrace = [] ∧
    (run_export "job" ⟨"/proj/doc.md", .vercel, none⟩ (fun _ => false)
      envC2).events = [] :=
  export_config_validation_spec.2.2.2.2 "job" ⟨"/proj/doc.md", .vercel, none⟩
    (fun _ => false) envC2 "" vercelHookMissingConfig
    ⟨true, some "app", none, .production⟩ _ rfl rfl rfl ⟨_, rfl⟩ rfl rfl rfl
    (fun _ h => nomatch h) rfl rfl rfl

/-! ## C3: "nothing to commit" is a successful no-op -/

theorem getLast?_append_singleton {α : Type} (l : List α) (a : α) :
    (l ++ [a]).getLast? = some a := by simp

/-- C3: in the Git adapter's commit phase with mode add-and-commit, a
"nothing to commit" outcome on either channel of the git commit invocation
yields `ok = true` with summary "No changes to commit" and an appended
warning log, while any other commit failure yields `GitFailed`. -/
theorem git_nothing_to_commit_spec :
    ∀ (filePath : FsPath) (resolved : ResolvedGitConfig)
      (request : ExportRequest) (cancel : Nat → Bool) (k : Nat)
      (logs : List ExportLog) (genv : GitEnv) (trace : List GitCmd)
      (statusOutput : String) (repoRoot : FsPath) (out : AdapterOut),
      out = gitAfterStatus filePath resolved request cancel k logs genv trace
        statusOutput →
      (resolved.checks.any (· == GitCheck.clean) &&
        strTrim statusOutput != "") = false →
      genv.topLevel = .ok repoRoot →
      filePath.startsWith repoRoot = true →
      cancel (k + 1) = false →
      (∃ aout, genv.addResult = .ok aout) →
      resolved.mode = .addAndCommit →
      (∀ cout, genv.commitResult = .ok cout →
        containsSub cout "nothing to commit" = true →
        out.resp.ok = true ∧ out.resp.summary = "No changes to commit" ∧
        out.resp.error = none ∧
        out.resp.logs.getLast? = some ⟨.warn, "Nothing to commit", none⟩)
      ∧ (∀ e, genv.commitResult = .error e →
          containsSub e "nothing to commit" = true →
          out.resp.ok = true ∧ out.resp.summary = "No changes to commit" ∧
          out.resp.error = none ∧
          out.resp.logs.getLast? = some ⟨.warn, "Nothing to commit", some e⟩)
      ∧ (∀ e, genv.commitResult = .error e →
          containsSub e "nothing to commit" = false →
          out.resp.ok = false ∧
          out.resp.error =
            some ⟨.gitFailed, "git commit failed", some e⟩) := by
  intro filePath resolved request cancel k logs genv trace statusOutput
    repoRoot out hout hdirty htop hsw hcancel hadd hmode
  obtain ⟨aout, hadd⟩ := hadd
  rw [gitAfterStatus] at hout
  simp only [hdirty, htop, hsw, hcancel, hadd, hmode, Bool.not_true,
    Bool.false_eq_true, if_false, Bool.not_eq_true] at hout
  refine ⟨?_, ?_, ?_⟩
  · intro cout hcommit hcontains
    rw [hcommit] at hout
    simp only [hcontains, if_true] at hout
    subst hout
    exact ⟨rfl, rfl, rfl, getLast?_append_singleton _ _⟩
  · intro e hcommit hcontains
    rw [hcommit] at hout
    simp only [hcontains, if_true] at hout
    subst hout
    exact ⟨rfl, rfl, rfl, getLast?_append_singleton _ _⟩
  · intro e hcommit hcontains
    rw [hcommit] at hout
    simp only [hcontains, Bool.false_eq_true, if_false] at hout
    subst hout
    exact ⟨rfl, rfl⟩

/-- Witness for `git_nothing_to_commit_spec`: a commit whose success output
reports nothing to commit yields the successful no-op summary, and a commit
failing with an unrelated error yields `GitFailed`. -/
theorem git_nothing_to_commit_spec_witness :
    ((gitAfterStatus ⟨true, ["proj", "doc.md"]⟩ ⟨".", .addAndCommit, []⟩
        ⟨"/proj/doc.md", .git, none⟩ (fun _ => false) 2 []
        ⟨.ok "true", .ok "", .ok ⟨true, ["proj"]⟩, .ok "",
          .ok "On branch main\nnothing to commit, working tree clean"⟩ []
        "").resp.ok = true ∧
      (gitAfterStatus ⟨true, ["proj", "doc.md"]⟩ ⟨".", .addAndCommit, []⟩
        ⟨"/proj/doc.md", .git, none⟩ (fun _ => false) 2 []
        ⟨.ok "true", .ok "", .ok ⟨true, ["proj"]⟩, .ok "",
          .ok "On branch main\nnothing to commit, working tree clean"⟩ []
        "").resp.summary = "No changes to commit") ∧
    ((gitAfterStatus ⟨true, ["proj", "doc.md"]⟩ ⟨".", .addAndCommit, []⟩
        ⟨"/proj/doc.md", .git, none⟩ (fun _ => false) 2 []
        ⟨.ok "true", .ok "", .ok ⟨true, ["proj"]⟩, .ok "",
          .error "fatal: unable to write"⟩ [] "").resp.error =
      some ⟨.gitFailed, "git commit failed",
        some "fatal: unable to write"⟩) := by
  constructor
  · have h := (git_nothing_to_commit_spec ⟨true, ["proj", "doc.md"]⟩
      ⟨".", .addAndCommit, []⟩ ⟨"/proj/doc.md", .git, none⟩ (fun _ => false)
      2 [] ⟨.ok "true", .ok "", .ok ⟨true, ["proj"]⟩, .ok "",
        .ok "On branch main\nnothing to commit, working tree clean"⟩ []
      "" ⟨true, ["proj"]⟩ _ rfl (by decide) rfl (by decide) rfl ⟨"", rfl⟩
      rfl).1 "On branch main\nnothing to commit, working tree clean" rfl
      (by decide)
    exact ⟨h.1, h.2.1⟩
  · have h := (git_nothing_to_commit_spec ⟨true, ["proj", "doc.md"]⟩
      ⟨".", .addAndCommit, []⟩ ⟨"/proj/doc.md", .git, none⟩ (fun _ => false)
      2 [] ⟨.ok "true", .ok "", .ok ⟨true, ["proj"]⟩, .ok "",
        .error "fatal: unable to write"⟩ [] "" ⟨true, ["proj"]⟩ _ rfl
      (by decide) rfl (by decide) rfl ⟨"", rfl⟩ rfl).2.2
      "fatal: unable to write" rfl (by decide)
    exact h.2

/-! ## C4: dirty working tree fails before stage/commit -/

/-- C4: whenever the resolved checks include "clean" and the captured
porcelain status is non-empty, the git adapter fails `GitDirty` carrying all
logs accumulated so far, and its command trace contains no stage or commit
invocation. -/
theorem git_dirty_spec :
    ∀ (projectRoot filePath : FsPath) (resolved : ResolvedGitConfig)
      (request : ExportRequest) (cancel : Nat → Bool) (k : Nat)
      (logs : List ExportLog) (genv : GitEnv) (out : AdapterOut) (s : String),
      out = gitWithResolved projectRoot filePath resolved request cancel k
        logs genv →
      cancel k = false →
      (resolved.checks.any (· == GitCheck.repo) &&
        !(isOkE genv.isWorkTree)) = false →
      resolved.checks.any (· == GitCheck.clean) = true →
      genv.statusOut = .ok s →
      strTrim s ≠ "" →
      out.resp = error_response .gitDirty "Git working tree is not clean" none
        (log_warn (log_info logs "Running Git checks"
          (some (resolve_path projectRoot resolved.repo_path).display))
          "Git status is not clean" (some (strTrim s))) ∧
      (∀ c ∈ out.gitTrace,
        (∀ f, c ≠ GitCmd.add f) ∧ (∀ m, c ≠ GitCmd.commit m)) := by
  intro projectRoot filePath resolved request cancel k logs genv out s hout
    hcancel hrepo hclean hstat hne
  have hcs : resolved.checks.any
      (fun c => c == GitCheck.status || c == GitCheck.clean) = true := by
    rw [List.any_eq_true] at hclean ⊢
    obtain ⟨x, hx, hxe⟩ := hclean
    exact ⟨x, hx, by rw [hxe, Bool.or_true]⟩
  have hb : (strTrim s != "") = true := bne_iff_ne.mpr hne
  rw [gitWithResolved] at hout
  simp only [hcancel, hrepo, hcs, hstat, hb, Bool.false_eq_true, if_false,
    if_true, Bool.not_eq_true] at hout
  rw [gitAfterStatus] at hout
  simp only [hclean, hb, Bool.and_self, if_true, Bool.true_and] at hout
  subst hout
  refine ⟨rfl, ?_⟩
  intro c hc
  cases hrc : resolved.checks.any (· == GitCheck.repo) with
  | true =>
      rw [hrc] at hc
      simp at hc
      rcases hc with rfl | rfl
      · exact ⟨fun f h => GitCmd.noConfusion h, fun m h => GitCmd.noConfusion h⟩
      · exact ⟨fun f h => GitCmd.noConfusion h, fun m h => GitCmd.noConfusion h⟩
  | false =>
      rw [hrc] at hc
      simp at hc
      subst hc
      exact ⟨fun f h => GitCmd.noConfusion h, fun m h => GitCmd.noConfusion h⟩

/-- Witness for `git_dirty_spec` on a dirty status capture with
`checks=[clean]`. -/
theorem git_dirty_spec_witness :
    (gitWithResolved ⟨true, ["proj"]⟩ ⟨true, ["proj", "doc.md"]⟩
      ⟨".", .addOnly, [GitCheck.clean]⟩ ⟨"/proj/doc.md", .git, none⟩
      (fun _ => false) 2 []
      ⟨.ok "true", .ok " M doc.md", .ok ⟨true, ["proj"]⟩, .ok "", .ok ""⟩).resp =
      error_response .gitDirty "Git working tree is not clean" none
        (log_warn (log_info [] "Running Git checks"
          (some (resolve_path ⟨true, ["proj"]⟩ ".").display))
          "Git status is not clean" (some (strTrim " M doc.md"))) ∧
    (∀ c ∈ (gitWithResolved ⟨true, ["proj"]⟩ ⟨true, ["proj", "doc.md"]⟩
      ⟨".", .addOnly, [GitCheck.clean]⟩ ⟨"/proj/doc.md", .git, none⟩
      (fun _ => false) 2 []
      ⟨.ok "true", .ok " M doc.md", .ok ⟨true, ["proj"]⟩, .ok "",
        .ok ""⟩).gitTrace,
      (∀ f, c ≠ GitCmd.add f) ∧ (∀ m, c ≠ GitCmd.commit m)) :=
  git_dirty_spec ⟨true, ["proj"]⟩ ⟨true, ["proj", "doc.md"]⟩
    ⟨".", .addOnly, [GitCheck.clean]⟩ ⟨"/proj/doc.md", .git, none⟩
    (fun _ => false) 2 []
    ⟨.ok "true", .ok " M doc.md", .ok ⟨true, ["proj"]⟩, .ok "", .ok ""⟩ _
    " M doc.md" rfl rfl (by decide) (by decide) rfl (by decide)

/-! ## C5: streaming progress events -/

theorem chunksAux_spec : ∀ (fuel n : Nat), n ≤ fuel →
    (chunksAux fuel n).sum = n ∧
    (∀ c ∈ chunksAux fuel n, 0 < c) ∧
    (chunksAux fuel n).length = (n + 8191) / 8192 := by
  intro fuel
  induction fuel with
  | zero =>
      intro n hn
      have : n = 0 := by omega
      subst this
      exact ⟨rfl, fun c hc => absurd hc (List.not_mem_nil c), by decide⟩
  | succ fuel ih =>
      intro n hn
      match n with
      | 0 =>
          rw [chunksAux]
          exact ⟨rfl, fun c hc => absurd hc (List.not_mem_nil c), by decide⟩
      | m + 1 =>
          rw [chunksAux]
          have hrec := ih ((m + 1) - min 8192 (m + 1)) (by omega)
          refine ⟨?_, ?_, ?_⟩
          · rw [List.sum_cons, hrec.1]; omega
          · intro c hc
            rcases List.mem_cons.mp hc with rfl | hc2
            · omega
            · exact hrec.2.1 c hc2
          · rw [List.length_cons, hrec.2.2]; omega

theorem expectedEvents_length (jobId : String) (total : Nat) :
    ∀ (cs : List Nat) (sent : Nat),
      (expectedEvents jobId total sent cs).length = cs.length := by
  intro cs
  induction cs with
  | nil => intro sent; rfl
  | cons c cs ih => intro sent; rw [expectedEvents, List.length_cons, ih]; rfl

theorem expectedEvents_mem (jobId : String) (total : Nat) :
    ∀ (cs : List Nat) (sent : Nat) (e : ExportProgress),
      e ∈ expectedEvents jobId total sent cs →
      e.totalBytes = total ∧ e.percent = progressPercent e.sentBytes total := by
  intro cs
  induction cs with
  | nil => intro sent e he; cases he
  | cons c cs ih =>
      intro sent e he
      rcases List.mem_cons.mp he with rfl | he2
      · exact ⟨rfl, rfl⟩
      · exact ih (sent + c) e he2

theorem expectedEvents_sent_chain (jobId : String) (total : Nat) :
    ∀ (cs : List Nat) (sent : Nat), (∀ c ∈ cs, 0 < c) →
      List.Chain (· < ·) sent
        ((expectedEvents jobId total sent cs).map (fun e => e.sentBytes)) := by
  intro cs
  induction cs with
  | nil => intro sent _; exact List.Chain.nil
  | cons c cs ih =>
      intro sent hpos
      rw [expectedEvents, List.map_cons]
      refine List.Chain.cons ?_
        (ih (sent + c) (fun x hx => hpos x (List.mem_cons_of_mem c hx)))
      show sent < sent + c
      have := hpos c (List.mem_cons_self c cs)
      omega

theorem expectedEvents_last_sent (jobId : String) (total : Nat) :
    ∀ (cs : List Nat) (sent : Nat), cs ≠ [] →
      ((expectedEvents jobId total sent cs).map
        (fun e => e.sentBytes)).getLast? = some (sent + cs.sum) := by
  intro cs
  induction cs with
  | nil => intro sent h; exact absurd rfl h
  | cons c cs ih =>
      intro sent _
      cases hcs : cs with
      | nil =>
          subst hcs
          simp [expectedEvents]
      | cons c2 cs2 =>
          subst hcs
          have htail := ih (sent + c) (by simp)
          rw [expectedEvents, List.map_cons, expectedEvents, List.map_cons]
          rw [expectedEvents, List.map_cons] at htail
          rw [List.getLast?_cons_cons, htail]
          simp only [List.sum_cons]
          congr 1
          omega

/-- The central loop invariant: with the reads of a regular file, the loop
emits a prefix of the expected event sequence, the whole of it when the
upload completes. -/
theorem uploadLoop_run (jobId : String) (total : Nat) (cancel : Nat → Bool) :
    ∀ (cs : List Nat) (steps : List (Except String Nat × Except String Unit))
      (k sent : Nat) (events0 : List ExportProgress),
      steps.map Prod.fst = cs.map Except.ok →
      (∀ c ∈ cs, 0 < c) →
      ∃ m, m ≤ cs.length ∧
        (uploadLoop jobId total cancel steps k sent events0).events =
          events0 ++ (expectedEvents jobId total sent cs).take m ∧
        ((uploadLoop jobId total cancel steps k sent events0).result =
            .ok () → m = cs.length) := by
  intro cs
  induction cs with
  | nil =>
      intro steps k sent events0 hmap _
      have hsteps : steps = [] := by
        cases steps with
        | nil => rfl
        | cons a b => simp at hmap
      subst hsteps
      rw [uploadLoop]
      refine ⟨0, Nat.le_refl _, ?_, fun _ => rfl⟩
      cases hck : cancel k <;> simp [hck, expectedEvents]
  | cons c cs ih =>
      intro steps k sent events0 hmap hpos
      match steps with
      | [] => simp at hmap
      | (r, w) :: rest =>
          rw [List.map_cons, List.map_cons] at hmap
          have hr : r = .ok c := by
            have := congrArg (fun l => l.headD (Except.error "")) hmap
            simpa using this
          have hrest : rest.map Prod.fst = cs.map Except.ok := by
            have := congrArg List.tail hmap
            simpa using this
          subst hr
          have hcpos : 0 < c := hpos c (List.mem_cons_self c cs)
          cases w with
          | error e =>
              rw [uploadLoop]
              by_cases hck : cancel k = true
              · rw [if_pos hck]
                exact ⟨0, Nat.zero_le _, by simp, fun h => nomatch h⟩
              · rw [if_neg hck, if_neg (by omega)]
                exact ⟨0, Nat.zero_le _, by simp, fun h => nomatch h⟩
          | ok wu =>
              rw [uploadLoop]
              by_cases hck : cancel k = true
              · rw [if_pos hck]
                exact ⟨0, Nat.zero_le _, by simp, fun h => nomatch h⟩
              · rw [if_neg hck, if_neg (by omega)]
                obtain ⟨m, hm, hev, hok⟩ := ih rest (k + 1) (sent + c)
                  (events0 ++
                    [⟨jobId, sent + c, total,
                      progressPercent (sent + c) total⟩])
                  hrest (fun x hx => hpos x (List.mem_cons_of_mem c hx))
                refine ⟨m + 1, by simpa using hm, ?_, ?_⟩
                · rw [hev, expectedEvents, List.take_succ_cons,
                    List.append_assoc]
                  rfl
                · intro hres
                  rw [hok hres, List.length_cons]

/-- C5 (corrected): for a streaming SFTP upload of a local file of size N
with chunk size 8192: at most ceil(N/8192) progress events are emitted,
exactly ceil(N/8192) (one per written chunk) when the upload completes;
sentBytes is strictly increasing with the final event's sentBytes equal to N
on completion; every event carries totalBytes = N and percent equal to the
binary32 (`f32`) evaluation of sentBytes/totalBytes×100 (0 when totalBytes
is 0).  The original claim's exact ratio and strict percent increase fail
under f32 rounding: see `sftp_percent_f32_counterexample`. -/
theorem sftp_progress_spec :
    ∀ (jobId : String) (password : Option String) (total : Nat)
      (cancel : Nat → Bool) (k : Nat) (env : SftpEnv) (u : UploadOut),
      u = upload_sftp jobId password total cancel k env →
      env.tcpConnect = .ok () → env.sessionNew = .ok () →
      env.handshake = .ok () → env.agentAuthOk = true →
      env.sftpOpen = .ok () → env.remoteCreate = .ok () →
      env.localOpen = .ok () →
      env.steps.map Prod.fst = (chunks8192 total).map Except.ok →
      u.events.length ≤ (total + 8191) / 8192 ∧
      (u.result = .ok () → u.events.length = (total + 8191) / 8192) ∧
      List.Chain' (· < ·) (u.events.map (fun e => e.sentBytes)) ∧
      (u.result = .ok () → total ≠ 0 →
        (u.events.map (fun e => e.sentBytes)).getLast? = some total) ∧
      (∀ e ∈ u.events, e.totalBytes = total ∧
        e.percent = progressPercent e.sentBytes total) := by
  intro jobId password total cancel k env u hu h1 h2 h3 h4 h5 h6 h7 hsteps
  have hloop : u = uploadLoop jobId total cancel env.steps k 0 [] := by
    subst hu
    simp only [upload_sftp, h1, h2, h3, h4, h5, h6, h7, if_true,
      Bool.not_true, Bool.false_eq_true, if_false]
  have hspec := chunksAux_spec total total (Nat.le_refl total)
  obtain ⟨m, hm, hev, hok⟩ := uploadLoop_run jobId total cancel
    (chunks8192 total) env.steps k 0 [] hsteps hspec.2.1
  rw [← hloop] at hev hok
  have hlen : (chunks8192 total).length = (total + 8191) / 8192 := hspec.2.2
  have hexlen := expectedEvents_length jobId total (chunks8192 total) 0
  have hchainS := expectedEvents_sent_chain jobId total (chunks8192 total) 0
    hspec.2.1
  have hchainS2 : List.Chain' (· < ·)
      ((expectedEvents jobId total 0 (chunks8192 total)).map
        (fun e => e.sentBytes)) := by
    cases hd : (expectedEvents jobId total 0 (chunks8192 total)).map
        (fun e => e.sentBytes) with
    | nil => exact trivial
    | cons x xs =>
        rw [hd] at hchainS
        cases hchainS with
        | cons _ htail => exact htail
  refine ⟨?_, ?_, ?_, ?_, ?_⟩
  · rw [hev, List.nil_append, List.length_take, hexlen, hlen]
    omega
  · intro hres
    rw [hev, List.nil_append, List.length_take, hexlen, hlen, hok hres, hlen]
    omega
  · rw [hev, List.nil_append, List.map_take]
    exact hchainS2.prefix (List.take_prefix m _)
  · intro hres hT
    have hne : chunks8192 total ≠ [] := by
      intro hnil
      apply hT
      rw [← hspec.1]
      rw [chunks8192] at hnil
      rw [hnil]
      rfl
    rw [hev, hok hres, List.nil_append,
      List.take_of_length_le (Nat.le_of_eq hexlen),
      expectedEvents_last_sent jobId total (chunks8192 total) 0 hne]
    rw [chunks8192, hspec.1, Nat.zero_add]
  · intro e he
    rw [hev, List.nil_append] at he
    exact expectedEvents_mem jobId total (chunks8192 total) 0 e
      (List.take_subset m _ he)

/-- Witness for `sftp_progress_spec`: a 3-byte file uploads in one chunk
with a single event whose sentBytes is 3. -/
theorem sftp_progress_spec_witness :
    (upload_sftp "j" none 3 (fun _ => false) 0
      ⟨.ok (), .ok (), .ok (), true, .ok (), true, .ok (), .ok (), .ok (),
        [(.ok 3, .ok ())]⟩).events.length = (3 + 8191) / 8192 ∧
    ((upload_sftp "j" none 3 (fun _ => false) 0
      ⟨.ok (), .ok (), .ok (), true, .ok (), true, .ok (), .ok (), .ok (),
        [(.ok 3, .ok ())]⟩).events.map (fun e => e.sentBytes)).getLast? =
      some 3 :=
  ⟨(sftp_progress_spec "j" none 3 (fun _ => false) 0
      ⟨.ok (), .ok (), .ok (), true, .ok (), true, .ok (), .ok (), .ok (),
        [(.ok 3, .ok ())]⟩ _ rfl rfl rfl rfl rfl rfl rfl rfl
      (by decide)).2.1 rfl,
   (sftp_progress_spec "j" none 3 (fun _ => false) 0
      ⟨.ok (), .ok (), .ok (), true, .ok (), true, .ok (), .ok (), .ok (),
        [(.ok 3, .ok ())]⟩ _ rfl rfl rfl rfl rfl rfl rfl rfl
      (by decide)).2.2.2.1 rfl (by decide)⟩

/-- C5 counterexample: the program computes percent in binary32, so the
first event of a three-chunk 24576-byte upload carries the f32 value
8738134/262144 (≈ 33.333336) rather than the exact ratio 100/3; and for a
2^40-byte upload the events at sentBytes 2^39 and 2^39 + 8192 (consecutive
chunk boundaries, 2^39 = 8192·2^26) carry the same percent 50, so percent
does not strictly increase across events. -/
theorem sftp_percent_f32_counterexample :
    ((uploadLoop "j" 24576 (fun _ => false)
        [(.ok 8192, .ok ()), (.ok 8192, .ok ()), (.ok 8192, .ok ())]
        0 0 []).events.map (fun e => e.percent)).head? =
      some (progressPercent 8192 24576) ∧
    progressPercent 8192 24576 = 8738134 / 262144 ∧
    progressPercent 8192 24576 ≠ (8192 * 100 : ℚ) / 24576 ∧
    (2 ^ 39 : Nat) < 2 ^ 39 + 8192 ∧
    progressPercent (2 ^ 39) (2 ^ 40) =
      progressPercent (2 ^ 39 + 8192) (2 ^ 40) :=
  ⟨rfl,
   Rat.ext (by with_unfolding_all decide) (by with_unfolding_all decide),
   fun h => absurd (congrArg Rat.num h) (by with_unfolding_all decide),
   by decide,
   Rat.ext (by with_unfolding_all decide) (by with_unfolding_all decide)⟩

/-! ## C6: cancellation at every polled checkpoint -/

theorem isCancelled_cancelled_response (logs : List ExportLog) :
    IsCancelled (cancelled_response "Export cancelled" logs) :=
  ⟨rfl, rfl, getLast?_append_singleton _ _⟩

theorem uploadLoop_cancel (jobId : String) (total : Nat) (cancel : Nat → Bool) :
    ∀ (steps : List (Except String Nat × Except String Unit)) (k sent : Nat)
      (events0 : List ExportProgress),
      (∃ i, k ≤ i ∧
        i < (uploadLoop jobId total cancel steps k sent events0).polls ∧
        cancel i = true) →
      (uploadLoop jobId total cancel steps k sent events0).result =
        .error "export_cancelled" := by
  intro steps
  induction steps with
  | nil =>
      intro k sent events0 hex
      obtain ⟨i, h1, h2, h3⟩ := hex
      rw [uploadLoop] at h2 ⊢
      by_cases hck : cancel k = true
      · rw [if_pos hck]
      · rw [if_neg hck] at h2 ⊢
        have h2a : i < k + 1 := h2
        have hik : i = k := by omega
        rw [hik] at h3
        exact absurd h3 hck
  | cons hd rest ih =>
      obtain ⟨r, w⟩ := hd
      intro k sent events0 hex
      obtain ⟨i, h1, h2, h3⟩ := hex
      cases r with
      | error e =>
          rw [uploadLoop] at h2 ⊢
          by_cases hck : cancel k = true
          · rw [if_pos hck]
          · rw [if_neg hck] at h2 ⊢
            have h2a : i < k + 1 := h2
            have hik : i = k := by omega
            rw [hik] at h3
            exact absurd h3 hck
      | ok n =>
          cases w with
          | error e =>
              rw [uploadLoop] at h2 ⊢
              by_cases hck : cancel k = true
              · rw [if_pos hck]
              · rw [if_neg hck] at h2 ⊢
                by_cases hn : n = 0
                · rw [if_pos hn] at h2 ⊢
                  have h2a : i < k + 1 := h2
                  have hik : i = k := by omega
                  rw [hik] at h3
                  exact absurd h3 hck
                · rw [if_neg hn] at h2 ⊢
                  have h2a : i < k + 1 := h2
                  have hik : i = k := by omega
                  rw [hik] at h3
                  exact absurd h3 hck
          | ok wu =>
              rw [uploadLoop] at h2 ⊢
              by_cases hck : cancel k = true
              · rw [if_pos hck]
              · rw [if_neg hck] at h2 ⊢
                by_cases hn : n = 0
                · rw [if_pos hn] at h2 ⊢
                  have h2a : i < k + 1 := h2
                  have hik : i = k := by omega
                  rw [hik] at h3
                  exact absurd h3 hck
                · rw [if_neg hn] at h2 ⊢
                  apply ih
                  refine ⟨i, ?_, h2, h3⟩
                  rcases Nat.eq_or_lt_of_le h1 with heqk | hlt
                  · rw [← heqk] at h3
                    exact absurd h3 hck
                  · omega

theorem upload_sftp_cases (jobId : String) (password : Option String)
    (total : Nat) (cancel : Nat → Bool) (k : Nat) (env : SftpEnv) :
    (upload_sftp jobId password total cancel k env).polls = k ∨
    upload_sftp jobId password total cancel k env =
      uploadLoop jobId total cancel env.steps k 0 [] := by
  obtain ⟨tc, sn, hs, ag, pa, pok, so, rc, lo, steps⟩ := env
  cases tc with
  | error e => exact Or.inl rfl
  | ok u1 =>
  cases sn with
  | error e => exact Or.inl rfl
  | ok u2 =>
  cases hs with
  | error e => exact Or.inl rfl
  | ok u3 =>
  cases ag with
  | true =>
      cases so with
      | error e => exact Or.inl rfl
      | ok u4 =>
      cases rc with
      | error e => exact Or.inl rfl
      | ok u5 =>
      cases lo with
      | error e => exact Or.inl rfl
      | ok u6 => exact Or.inr rfl
  | false =>
      cases password with
      | none => exact Or.inl rfl
      | some pw =>
          cases pa with
          | error e => exact Or.inl rfl
          | ok u7 =>
              cases pok with
              | false => exact Or.inl rfl
              | true =>
                  cases so with
                  | error e => exact Or.inl rfl
                  | ok u4 =>
                  cases rc with
                  | error e => exact Or.inl rfl
                  | ok u5 =>
                  cases lo with
                  | error e => exact Or.inl rfl
                  | ok u6 => exact Or.inr rfl

theorem upload_sftp_cancel (jobId : String) (password : Option String)
    (total : Nat) (cancel : Nat → Bool) (k : Nat) (env : SftpEnv) :
    (∃ i, k ≤ i ∧
      i < (upload_sftp jobId password total cancel k env).polls ∧
      cancel i = true) →
    (upload_sftp jobId password total cancel k env).result =
      .error "export_cancelled" := by
  intro hex
  rcases upload_sftp_cases jobId password total cancel k env with hp | heq
  · obtain ⟨i, h1, h2, h3⟩ := hex
    rw [hp] at h2
    omega
  · rw [heq] at hex ⊢
    exact uploadLoop_cancel jobId total cancel env.steps k 0 [] hex

theorem gitAfterStatus_cancel (filePath : FsPath)
    (resolved : ResolvedGitConfig) (request : ExportRequest)
    (cancel : Nat → Bool) (k : Nat) (logs : List ExportLog) (genv : GitEnv)
    (trace : List GitCmd) (statusOutput : String) (out : AdapterOut)
    (hout : out = gitAfterStatus filePath resolved request cancel k logs genv
      trace statusOutput)
    (hex : ∃ i, k + 1 ≤ i ∧ i < out.polls ∧ cancel i = true) :
    IsCancelled out.resp := by
  simp only [gitAfterStatus] at hout
  repeat' split at hout
  all_goals subst hout
  all_goals obtain ⟨i, h1, h2, h3⟩ := hex
  all_goals
    first
    | exact isCancelled_cancelled_response _
    | (have h2a : i < k + 1 := h2; omega)
    | (have h2a : i < k + 2 := h2
       have hik : i = k + 1 := by omega
       rw [hik] at h3
       simp_all)

theorem gitWithResolved_cancel (projectRoot filePath : FsPath)
    (resolved : ResolvedGitConfig) (request : ExportRequest)
    (cancel : Nat → Bool) (k : Nat) (logs : List ExportLog) (genv : GitEnv)
    (out : AdapterOut)
    (hout : out = gitWithResolved projectRoot filePath resolved request cancel
      k logs genv)
    (hex : ∃ i, k ≤ i ∧ i < out.polls ∧ cancel i = true) :
    IsCancelled out.resp := by
  simp only [gitWithResolved] at hout
  repeat' split at hout
  all_goals subst hout
  all_goals obtain ⟨i, h1, h2, h3⟩ := hex
  all_goals
    first
    | exact isCancelled_cancelled_response _
    | (have h2a : i < k + 1 := h2
       have hik : i = k := by omega
       rw [hik] at h3
       simp_all)
    | (refine gitAfterStatus_cancel _ _ _ _ _ _ _ _ _ _ rfl ⟨i, ?_, h2, h3⟩
       rcases Nat.eq_or_lt_of_le h1 with heqk | hlt
       · rw [← heqk] at h3
         simp_all
       · omega)

theorem run_git_export_cancel (projectRoot filePath : FsPath)
    (config : ExportConfig) (request : ExportRequest) (cancel : Nat → Bool)
    (k : Nat) (logs : List ExportLog) (genv : GitEnv) (out : AdapterOut)
    (hout : out = run_git_export projectRoot filePath config request cancel k
      logs genv)
    (hex : ∃ i, k ≤ i ∧ i < out.polls ∧ cancel i = true) :
    IsCancelled out.resp := by
  simp only [run_git_export] at hout
  repeat' split at hout
  all_goals subst hout
  all_goals
    first
    | (exact gitWithResolved_cancel _ _ _ _ _ _ _ _ _ rfl hex)
    | (obtain ⟨i, h1, h2, h3⟩ := hex
       have h2a : i < k := h2
       omega)

theorem run_ftp_export_cancel (jobId : String) (filePath : FsPath)
    (config : ExportConfig) (request : ExportRequest) (cancel : Nat → Bool)
    (k : Nat) (logs : List ExportLog) (fenv : FtpEnv) (out : AdapterOut)
    (hout : out = run_ftp_export jobId filePath config request cancel k logs
      fenv)
    (hex : ∃ i, k ≤ i ∧ i < out.polls ∧ cancel i = true) :
    IsCancelled out.resp := by
  simp only [run_ftp_export] at hout
  repeat' split at hout
  all_goals subst hout
  all_goals obtain ⟨i, h1, h2, h3⟩ := hex
  all_goals
    first
    | exact isCancelled_cancelled_response _
    | (have h2a : i < k := h2; omega)
    | (have h2a : i < k + 1 := h2
       have hik : i = k := by omega
       rw [hik] at h3
       simp_all)
    | (have hi1 : k + 1 ≤ i := by
         rcases Nat.eq_or_lt_of_le h1 with heqk | hlt
         · rw [← heqk] at h3
           simp_all
         · omega
       have hup := upload_sftp_cancel _ _ _ _ _ _ ⟨i, hi1, h2, h3⟩
       simp_all)

theorem run_netlify_export_cancel (config : ExportConfig)
    (cancel : Nat → Bool) (k : Nat) (logs : List ExportLog)
    (nenv : NetlifyEnv) (out : AdapterOut)
    (hout : out = run_netlify_export config cancel k logs nenv)
    (hex : ∃ i, k ≤ i ∧ i < out.polls ∧ cancel i = true) :
    IsCancelled out.resp := by
  simp only [run_netlify_export] at hout
  repeat' split at hout
  all_goals subst hout
  all_goals obtain ⟨i, h1, h2, h3⟩ := hex
  all_goals
    first
    | exact isCancelled_cancelled_response _
    | (have h2a : i < k := h2; omega)
    | (have h2a : i < k + 1 := h2
       have hik : i = k := by omega
       rw [hik] at h3
       simp_all)
    | (have h2a : i < k + 2 := h2
       have hik : i = k ∨ i = k + 1 := by omega
       rcases hik with hik | hik <;> rw [hik] at h3 <;> simp_all)

theorem run_vercel_export_cancel (config : ExportConfig)
    (cancel : Nat → Bool) (k : Nat) (logs : List ExportLog) (venv : VercelEnv)
    (out : AdapterOut)
    (hout : out = run_vercel_export config cancel k logs venv)
    (hex : ∃ i, k ≤ i ∧ i < out.polls ∧ cancel i = true) :
    IsCancelled out.resp := by
  simp only [run_vercel_export] at hout
  repeat' split at hout
  all_goals subst hout
  all_goals obtain ⟨i, h1, h2, h3⟩ := hex
  all_goals
    first
    | exact isCancelled_cancelled_response _
    | (have h2a : i < k := h2; omega)
    | (have h2a : i < k + 1 := h2
       have hik : i = k := by omega
       rw [hik] at h3
       simp_all)

/-- C6: whenever any polled checkpoint of the export pipeline (the two
pipeline polls, the adapters' polls before process/network calls, and the
per-chunk polls of the streaming upload) observes the cancellation flag set,
the run terminates with `ok = false`, error code `ExportCancelled`, and a
warning log entry appended to the returned logs. -/
theorem export_cancellation_spec :
    ∀ (jobId : String) (request : ExportRequest) (cancel : Nat → Bool)
      (env : PipelineEnv) (out : AdapterOut),
      out = run_export jobId request cancel env →
      (∃ i, i < out.polls ∧ cancel i = true) →
      out.resp.ok = false ∧
      out.resp.error = some ⟨.exportCancelled, "Export cancelled", none⟩ ∧
      out.resp.logs.getLast? = some ⟨.warn, "Export cancelled", none⟩ := by
  intro jobId request cancel env out hout hex
  show IsCancelled out.resp
  simp only [run_export] at hout
  repeat' split at hout
  all_goals obtain ⟨i, h2, h3⟩ := hex
  all_goals
    first
    | (subst hout; exact isCancelled_cancelled_response _)
    | (subst hout
       have h2a : i < 1 := h2
       have hik : i = 0 := by omega
       rw [hik] at h3
       simp_all)
    | (refine run_git_export_cancel _ _ _ _ _ _ _ _ _ hout
        ⟨i, ?_, h2, h3⟩
       by_contra hlt
       have hik : i = 0 ∨ i = 1 := by omega
       rcases hik with hik | hik <;> rw [hik] at h3 <;> simp_all)
    | (refine run_ftp_export_cancel _ _ _ _ _ _ _ _ _ hout
        ⟨i, ?_, h2, h3⟩
       by_contra hlt
       have hik : i = 0 ∨ i = 1 := by omega
       rcases hik with hik | hik <;> rw [hik] at h3 <;> simp_all)
    | (refine run_netlify_export_cancel _ _ _ _ _ _ hout ⟨i, ?_, h2, h3⟩
       by_contra hlt
       have hik : i = 0 ∨ i = 1 := by omega
       rcases hik with hik | hik <;> rw [hik] at h3 <;> simp_all)
    | (refine run_vercel_export_cancel _ _ _ _ _ _ hout ⟨i, ?_, h2, h3⟩
       by_contra hlt
       have hik : i = 0 ∨ i = 1 := by omega
       rcases hik with hik | hik <;> rw [hik] at h3 <;> simp_all)

/-- Witness for `export_cancellation_spec`: a flag already set at submission
time cancels the run at the first checkpoint. -/
theorem export_cancellation_spec_witness :
    (run_export "job" ⟨"/proj/doc.md", .git, none⟩ (fun _ => true)
      envC2).resp.ok = false ∧
    (run_export "job" ⟨"/proj/doc.md", .git, none⟩ (fun _ => true)
      envC2).resp.error =
      some ⟨.exportCancelled, "Export cancelled", none⟩ ∧
    (run_export "job" ⟨"/proj/doc.md", .git, none⟩ (fun _ => true)
      envC2).resp.logs.getLast? = some ⟨.warn, "Export cancelled", none⟩ :=
  export_cancellation_spec "job" ⟨"/proj/doc.md", .git, none⟩ (fun _ => true)
    envC2 _ rfl ⟨0, by decide, rfl⟩

/-! ## C9: terminal response invariant and log accumulation -/

theorem gitAfterStatus_ok_iff (filePath : FsPath)
    (resolved : ResolvedGitConfig) (request : ExportRequest)
    (cancel : Nat → Bool) (k : Nat) (logs : List ExportLog) (genv : GitEnv)
    (trace : List GitCmd) (statusOutput : String) (out : AdapterOut)
    (hout : out = gitAfterStatus filePath resolved request cancel k logs genv
      trace statusOutput) :
    (out.resp.ok = false ↔ (out.resp.error).isSome = true) := by
  simp only [gitAfterStatus] at hout
  repeat' split at hout
  all_goals subst hout
  all_goals simp [error_response, cancelled_response]

theorem run_git_export_ok_iff (projectRoot filePath : FsPath)
    (config : ExportConfig) (request : ExportRequest) (cancel : Nat → Bool)
    (k : Nat) (logs : List ExportLog) (genv : GitEnv) (out : AdapterOut)
    (hout : out = run_git_export projectRoot filePath config request cancel k
      logs genv) :
    (out.resp.ok = false ↔ (out.resp.error).isSome = true) := by
  simp only [run_git_export, gitWithResolved] at hout
  repeat' split at hout
  all_goals
    first
    | exact gitAfterStatus_ok_iff _ _ _ _ _ _ _ _ _ _ hout
    | (subst hout; simp [error_response, cancelled_response])

theorem run_ftp_export_ok_iff (jobId : String) (filePath : FsPath)
    (config : ExportConfig) (request : ExportRequest) (cancel : Nat → Bool)
    (k : Nat) (logs : List ExportLog) (fenv : FtpEnv) (out : AdapterOut)
    (hout : out = run_ftp_export jobId filePath config request cancel k logs
      fenv) :
    (out.resp.ok = false ↔ (out.resp.error).isSome = true) := by
  simp only [run_ftp_export] at hout
  repeat' split at hout
  all_goals subst hout
  all_goals simp [error_response, cancelled_response]

theorem run_netlify_export_ok_iff (config : ExportConfig)
    (cancel : Nat → Bool) (k : Nat) (logs : List ExportLog)
    (nenv : NetlifyEnv) (out : AdapterOut)
    (hout : out = run_netlify_export config cancel k logs nenv) :
    (out.resp.ok = false ↔ (out.resp.error).isSome = true) := by
  simp only [run_netlify_export] at hout
  repeat' split at hout
  all_goals subst hout
  all_goals simp [error_response, cancelled_response]

theorem run_vercel_export_ok_iff (config : ExportConfig)
    (cancel : Nat → Bool) (k : Nat) (logs : List ExportLog) (venv : VercelEnv)
    (out : AdapterOut)
    (hout : out = run_vercel_export config cancel k logs venv) :
    (out.resp.ok = false ↔ (out.resp.error).isSome = true) := by
  simp only [run_vercel_export] at hout
  repeat' split at hout
  all_goals subst hout
  all_goals simp [error_response, cancelled_response]

theorem gitAfterStatus_logs_accum (filePath : FsPath)
    (resolved : ResolvedGitConfig) (request : ExportRequest)
    (cancel : Nat → Bool) (k : Nat) (logs : List ExportLog) (genv : GitEnv)
    (trace : List GitCmd) (statusOutput : String) (out : AdapterOut)
    (hout : out = gitAfterStatus filePath resolved request cancel k logs genv
      trace statusOutput) :
    logs <+: out.resp.logs := by
  simp only [gitAfterStatus] at hout
  repeat' split at hout
  all_goals subst hout
  all_goals
    simp only [error_response, cancelled_response, log_info, log_warn,
      List.append_assoc]
    first
    | exact List.prefix_rfl
    | exact List.prefix_append _ _

theorem run_git_export_logs_accum (projectRoot filePath : FsPath)
    (config : ExportConfig) (request : ExportRequest) (cancel : Nat → Bool)
    (k : Nat) (logs : List ExportLog) (genv : GitEnv) (out : AdapterOut)
    (hout : out = run_git_export projectRoot filePath config request cancel k
      logs genv) :
    logs <+: out.resp.logs := by
  simp only [run_git_export, gitWithResolved] at hout
  repeat' split at hout
  all_goals subst hout
  all_goals
    first
    | (simp only [error_response, cancelled_response, log_info, log_warn,
         List.append_assoc]
       first
       | exact List.prefix_rfl
       | exact List.prefix_append _ _)
    | (simp only [log_info, log_warn, List.append_assoc]
       exact List.IsPrefix.trans (List.prefix_append _ _)
         (gitAfterStatus_logs_accum _ _ _ _ _ _ _ _ _ _ rfl))

theorem run_ftp_export_logs_accum (jobId : String) (filePath : FsPath)
    (config : ExportConfig) (request : ExportRequest) (cancel : Nat → Bool)
    (k : Nat) (logs : List ExportLog) (fenv : FtpEnv) (out : AdapterOut)
    (hout : out = run_ftp_export jobId filePath config request cancel k logs
      fenv) :
    logs <+: out.resp.logs := by
  simp only [run_ftp_export] at hout
  repeat' split at hout
  all_goals subst hout
  all_goals
    simp only [error_response, cancelled_response, log_info, log_warn,
      List.append_assoc]
    first
    | exact List.prefix_rfl
    | exact List.prefix_append _ _

theorem run_netlify_export_logs_accum (config : ExportConfig)
    (cancel : Nat → Bool) (k : Nat) (logs : List ExportLog)
    (nenv : NetlifyEnv) (out : AdapterOut)
    (hout : out = run_netlify_export config cancel k logs nenv) :
    logs <+: out.resp.logs := by
  simp only [run_netlify_export] at hout
  repeat' split at hout
  all_goals subst hout
  all_goals
    simp only [error_response, cancelled_response, log_info, log_warn,
      List.append_assoc]
    first
    | exact List.prefix_rfl
    | exact List.prefix_append _ _

theorem run_vercel_export_logs_accum (config : ExportConfig)
    (cancel : Nat → Bool) (k : Nat) (logs : List ExportLog) (venv : VercelEnv)
    (out : AdapterOut)
    (hout : out = run_vercel_export config cancel k logs venv) :
    logs <+: out.resp.logs := by
  simp only [run_vercel_export] at hout
  repeat' split at hout
  all_goals subst hout
  all_goals
    simp only [error_response, cancelled_response, log_info, log_warn,
      List.append_assoc]
    first
    | exact List.prefix_rfl
    | exact List.prefix_append _ _

/-- C9: every terminal response of the export pipeline has `ok = false`
exactly when an error (with its code from the closed `ExportErrorCode` set)
is present — success responses carry no error — and every adapter returns
the logs it was handed as a prefix of the response's logs, so no
accumulated log entry is dropped at the terminal point. -/
theorem export_response_invariant_spec :
    (∀ (jobId : String) (request : ExportRequest) (cancel : Nat → Bool)
        (env : PipelineEnv) (out : AdapterOut),
      out = run_export jobId request cancel env →
      (out.resp.ok = false ↔ (out.resp.error).isSome = true))
    ∧ (∀ (projectRoot filePath : FsPath) (config : ExportConfig)
        (request : ExportRequest) (cancel : Nat → Bool) (k : Nat)
        (logs : List ExportLog) (genv : GitEnv),
      logs <+: (run_git_export projectRoot filePath config request cancel k
        logs genv).resp.logs)
    ∧ (∀ (jobId : String) (filePath : FsPath) (config : ExportConfig)
        (request : ExportRequest) (cancel : Nat → Bool) (k : Nat)
        (logs : List ExportLog) (fenv : FtpEnv),
      logs <+: (run_ftp_export jobId filePath config request cancel k logs
        fenv).resp.logs)
    ∧ (∀ (config : ExportConfig) (cancel : Nat → Bool) (k : Nat)
        (logs : List ExportLog) (nenv : NetlifyEnv),
      logs <+: (run_netlify_export config cancel k logs nenv).resp.logs)
    ∧ (∀ (config : ExportConfig) (cancel : Nat → Bool) (k : Nat)
        (logs : List ExportLog) (venv : VercelEnv),
      logs <+: (run_vercel_export config cancel k logs venv).resp.logs) := by
  refine ⟨?_, ?_, ?_, ?_, ?_⟩
  · intro jobId request cancel env out hout
    simp only [run_export] at hout
    repeat' split at hout
    all_goals
      first
      | exact run_git_export_ok_iff _ _ _ _ _ _ _ _ _ hout
      | exact run_ftp_export_ok_iff _ _ _ _ _ _ _ _ _ hout
      | exact run_netlify_export_ok_iff _ _ _ _ _ _ hout
      | exact run_vercel_export_ok_iff _ _ _ _ _ _ hout
      | (subst hout; simp [error_response, cancelled_response])
  · intro projectRoot filePath config request cancel k logs genv
    exact run_git_export_logs_accum _ _ _ _ _ _ _ _ _ rfl
  · intro jobId filePath config request cancel k logs fenv
    exact run_ftp_export_logs_accum _ _ _ _ _ _ _ _ _ rfl
  · intro config cancel k logs nenv
    exact run_netlify_export_logs_accum _ _ _ _ _ _ rfl
  · intro config cancel k logs venv
    exact run_vercel_export_logs_accum _ _ _ _ _ _ rfl

/-- Witness for `export_response_invariant_spec`: the invariant instantiated
on a concrete failing run and a concrete adapter call with prior logs. -/
theorem export_response_invariant_spec_witness :
    ((run_export "job" ⟨"/proj/doc.md", .vercel, none⟩ (fun _ => false)
        envC2).resp.ok = false ↔
      ((run_export "job" ⟨"/proj/doc.md", .vercel, none⟩ (fun _ => false)
        envC2).resp.error).isSome = true) ∧
    [ExportLog.mk .info "prior" none] <+:
      (run_netlify_export vercelHookMissingConfig (fun _ => false) 2
        [ExportLog.mk .info "prior" none] okNetlifyEnv).resp.logs :=
  ⟨export_response_invariant_spec.1 "job" ⟨"/proj/doc.md", .vercel, none⟩
     (fun _ => false) envC2 _ rfl,
   export_response_invariant_spec.2.2.2.1 vercelHookMissingConfig
     (fun _ => false) 2 [ExportLog.mk .info "prior" none] okNetlifyEnv⟩

/-! ## C10: publish path containment -/

set_option maxRecDepth 4000 in
/-- C10 (bug demonstration): `publish_project` copies the asset
`/proj/../secret.txt` — whose canonical path `/secret.txt` lies outside the
canonical project root — into the output tree, reporting success with no
warning, because the containment check runs on the uncanonicalized joined
path, which syntactically starts with the project root.  The claim's
assertion that every asset whose canonical path is outside the project root
is skipped with a warning therefore fails on this input. -/
theorem publish_asset_traversal :
    (publish_project publishTraversalEnv
      ⟨"/proj", ["/proj/doc.md"], none⟩).copies =
      [(pubDoc, ⟨true, ["proj", "_publish", "doc.md"]⟩),
       (pubAsset, ⟨true, ["proj", "_publish", "..", "secret.txt"]⟩)] ∧
    ((publish_project publishTraversalEnv
      ⟨"/proj", ["/proj/doc.md"], none⟩).result.toOption.map
        (fun r => r.warnings)) = some [] ∧
    publishTraversalEnv.canon pubAsset = .ok pubSecret ∧
    pubSecret.startsWith pubRoot = false :=
  ⟨by decide, by decide, by decide, by decide⟩

end Ernest


